import Mathlib

/-!
Verification development for the type-inference engine of ts2c (src/types.ts).
The TypeScript source is shallowly embedded: each definition below mirrors a
function or class of src/types.ts (line references are to that file).  The
front-end (TypeScript compiler API) is modelled as an oracle supplying, per
AST node, a symbol declaration position and an apparent static type.
-/

namespace Ts2c

/-! ## String constants (lines 4-8) -/

def UniversalVarType : String := "struct js_var *"
def PointerVarType : String := "void *"
def StringVarType : String := "const char *"
def NumberVarType : String := "int16_t"
def BooleanVarType : String := "uint8_t"

/-! ## The CType union (line 3): string | StructType | ArrayType | DictType.
StructType keeps its stored structName (line 37) and ordered properties
dictionary (line 38); ArrayType keeps elementType, capacity, isDynamicArray
(lines 26-28); DictType keeps elementType (line 53). -/

inductive CType : Type where
  | str (s : String)
  | arrayType (elementType : CType) (capacity : Nat) (isDynamicArray : Bool)
  | structType (structName : String) (properties : List (String × CType))
  | dictType (elementType : CType)

/-- The JS string comparison `x == UniversalVarType` on a CType value:
true only when the value is that very string (an object never equals it). -/
def isUniversal : CType → Bool
  | .str s => s == UniversalVarType
  | _ => false

/-- The JS string comparison `x == PointerVarType` on a CType value. -/
def isPointer : CType → Bool
  | .str s => s == PointerVarType
  | _ => false

/-- getText of ArrayType (lines 12-24), StructType (lines 33-35),
DictType (lines 42-51); a plain string renders as itself (the
`typeof elementType === "string"` branches). -/
def ctypeText : CType → String
  | .str s => s
  | .arrayType elementType capacity isDynamicArray =>
      let elementTypeText := ctypeText elementType
      if isDynamicArray then "ARRAY(" ++ elementTypeText ++ ")"
      else "static " ++ elementTypeText ++ " {var}[" ++ toString capacity ++ "]"
  | .structType structName _ => structName
  | .dictType elementType => "DICT(" ++ ctypeText elementType ++ ")"

/-- JS truthiness of a CType value: objects are truthy, a string is truthy
iff non-empty. -/
def ctIsTruthy : CType → Bool
  | .str s => s ≠ ""
  | _ => true

/-! ## Association lists with JS object-literal semantics: assigning to an
existing key updates it in place (keeping its position), assigning a fresh
key appends it; `for-in` iteration follows this order.  (Numeric keys, which
JS iterates in ascending order, are handled by sorting where the source
iterates such a table.) -/

def aset {α : Type} [DecidableEq α] {β : Type} : List (α × β) → α → β → List (α × β)
  | [], k, v => [(k, v)]
  | (k', v') :: rest, k, v =>
      if k' = k then (k, v) :: rest else (k', v') :: aset rest k v

def alookup {α : Type} [DecidableEq α] {β : Type} : List (α × β) → α → Option β
  | [], _ => none
  | (k', v') :: rest, k => if k' = k then some v' else alookup rest k

def adel {α : Type} [DecidableEq α] {β : Type} : List (α × β) → α → List (α × β)
  | [], _ => []
  | (k', v') :: rest, k => if k' = k then rest else (k', v') :: adel rest k

/-- Sparse JS array read: `xs[i]`, undefined past the end. -/
def listGetO {β : Type} : List (Option β) → Nat → Option β
  | [], _ => none
  | x :: _, 0 => x
  | _ :: rest, i + 1 => listGetO rest i

/-- Sparse JS array write: `xs[i] = v`, filling holes with undefined. -/
def listSetO {β : Type} : List (Option β) → Nat → β → List (Option β)
  | [], 0, v => [some v]
  | [], i + 1, v => none :: listSetO [] i v
  | _ :: rest, 0, v => some v :: rest
  | x :: rest, i + 1, v => x :: listSetO rest i v

/-- Ascending sort of numeric table keys (JS for-in visits integer-like keys
in ascending order). -/
def insertSorted (n : Nat) : List Nat → List Nat
  | [] => [n]
  | m :: rest => if n ≤ m then n :: m :: rest else m :: insertSorted n rest

def sortNat (l : List Nat) : List Nat := l.foldr insertSorted []

/-! ## getStructureBodyString (lines 748-766) -/

/-- Whether `pat` occurs in `s` (the `indexOf(pat) > -1` test). -/
def hasSubstr (s pat : String) : Bool := (s.splitOn pat).length > 1

/-- Replace the first occurrence of `pat` in `s` by `repl`
(JS `String.prototype.replace` with a string pattern). -/
def replaceFirst (s pat repl : String) : String :=
  match s.splitOn pat with
  | [] => s
  | [x] => x
  | x :: y :: rest => x ++ repl ++ String.intercalate pat (y :: rest)

/-- Remove a leading "static " if present (the anchored regex replace
on line 757). -/
def stripStaticLead (s : String) : String :=
  if s.startsWith "static " then s.drop 7 else s

/-- The line contributed to the body serialization by one property
(the loop body of lines 750-763). -/
def structBodyLine (propName : String) (propType : CType) : String :=
  match propType with
  | .str s => "    " ++ s ++ " " ++ propName ++ ";\n"
  | .arrayType e c d =>
      let propTypeText := ctypeText (.arrayType e c d)
      if hasSubstr propTypeText "{var}" then
        "    " ++ replaceFirst (stripStaticLead propTypeText) "{var}" propName ++ ";\n"
      else
        "    " ++ propTypeText ++ " " ++ propName ++ ";\n"
  | t => "    " ++ ctypeText t ++ " " ++ propName ++ ";\n"

/-- Canonical record-body serialization (lines 748-766): one
"<type-text> <prop-name>;" line per property in declaration order, arrays
with a placeholder substituting the property name. -/
def getStructureBodyString (properties : List (String × CType)) : String :=
  let body := properties.foldl (fun acc p => acc ++ structBodyLine p.1 p.2) ""
  "\x7b\n" ++ body ++ "\x7d;\n"

/-! ## getTypeString (lines 233-254), after its source-conversion steps.
The converted value is either one of the four CType shapes or something
else (null/undefined from a failed conversion), modelled as `none`. -/

def getTypeString : Option CType → Except String String
  | some (.arrayType e c d) => .ok (ctypeText (.arrayType e c d))
  | some (.structType n p) => .ok (ctypeText (.structType n p))
  | some (.dictType e) => .ok (ctypeText (.dictType e))
  | some (.str s) => .ok s
  | none => .error "Unrecognized type source"

/-! ## AST nodes.  Only the syntactic shapes the engine dispatches on are
distinguished; every node carries its `pos`.  `otherKind` stands for any
node kind outside the dispatch (the default branch of getCType, the
non-deferrable right-hand sides of determineType, ...). -/

inductive Node : Type where
  | numLit (pos : Nat) (text : String)
  | strLit (pos : Nat) (value : String)
  | boolLit (pos : Nat) (value : Bool)
  | ident (pos : Nat) (name : String)
  | propAccess (pos : Nat) (obj : Node) (propName : String)
  | elemAccess (pos : Nat) (obj : Node) (argument : Node)
  | callExpr (pos : Nat) (callee : Node) (args : List Node)
  | arrLit (pos : Nat) (elems : List Node)
  | objLit (pos : Nat)
  | funcDecl (pos : Nat)
  | otherKind (pos : Nat)

def Node.position : Node → Nat
  | .numLit p _ => p
  | .strLit p _ => p
  | .boolLit p _ => p
  | .ident p _ => p
  | .propAccess p _ _ => p
  | .elemAccess p _ _ => p
  | .callExpr p _ _ => p
  | .arrLit p _ => p
  | .objLit p => p
  | .funcDecl p => p
  | .otherKind p => p

/-- Front-end getText() as far as the engine inspects it textually: literal
and identifier forms; compound nodes are not inspected on the modelled
paths, so their text is abbreviated. -/
def nodeText : Node → String
  | .numLit _ t => t
  | .strLit _ v => "\"" ++ v ++ "\""
  | .boolLit _ b => if b then "true" else "false"
  | .ident _ n => n
  | _ => ""

/-- JS `s.slice(1, -1)`. -/
def sliceInner (s : String) : String := (s.drop 1).dropRight 1

/-! ## Front-end types (ts.Type) as consumed by convertType and
generateStructure.  A property of an object type carries its name, its own
apparent type, and, when its declaration is a PropertyAssignment whose
initializer is an array literal, that literal node position together with
the apparent types of its elements (exactly what lines 722-726 consult). -/

inductive TsType : Type where
  | voidT
  | stringT
  | numberT
  | booleanT
  | anyT
  | objT (props : List (String × TsType × Option (Nat × List TsType)))
  | otherT (shown : String)

def TsType.getProperties :
    TsType → List (String × TsType × Option (Nat × List TsType))
  | .objT props => props
  | _ => []

/-- The front-end oracle: symbol resolution (identifier to the position of
the declaration of its symbol, getSymbolAtLocation + valueDeclaration.pos)
and the apparent-type query (getTypeAtLocation). -/
structure Oracle : Type where
  symbolAt : Node → Option Nat
  typeAt : Node → TsType

/-! ## TypePromise (lines 70-78) and the CType-or-promise union. -/

/-- The `element: string | boolean` constructor argument of TypePromise. -/
inductive StrBool : Type where
  | s (v : String)
  | b (v : Bool)

def strBoolTruthy : StrBool → Bool
  | .s v => v ≠ ""
  | .b v => v

structure TypePromise : Type where
  associatedNode : Node
  element : StrBool
  resolved : Bool := false
  associatedProperty : Option String := none
  arrayOf : Bool := false

/-- JS truthiness of the associatedProperty field. -/
def apTruthy : Option String → Bool
  | some s => s ≠ ""
  | none => false

inductive CTypeOrTP : Type where
  | ct (t : CType)
  | tp (p : TypePromise)

/-! ## VariableInfo (lines 57-68) and VariableData (lines 80-90).
The unused stored tsType field of VariableData (written once, never read)
is omitted.  Absent JS fields (undefined) are modelled by their falsy
defaults. -/

structure VariableInfo : Type where
  name : String := ""
  type : Option CType := none
  references : List Node := []
  requiresAllocation : Bool := false

structure VariableData : Type where
  assignmentTypes : List (String × CType) := []
  typePromises : List TypePromise := []
  addedProperties : List (String × CType) := []
  parameterIndex : Option Nat := none
  parameterFuncDeclPos : Option Nat := none
  objLiteralAssigned : Bool := false
  isDynamicArray : Bool := false
  isDict : Bool := false

/-! ## The TypeHelper tables (lines 94-104, 280).  Function-return tables
are keyed by the scope id `parentFunc && parentFunc.pos + 1 || "main"`,
modelled as `Option Nat` with `none` for "main". -/

structure TypeState : Type where
  -- the field named `variables` in the source; renamed because Lean reserves that word
  variablesTable : List (Nat × VariableInfo) := []
  variablesData : List (Nat × VariableData) := []
  userStructs : List (String × CType) := []
  functionCallsData : List (Nat × List (Option CTypeOrTP)) := []
  functionReturnsData : List (Option Nat × CTypeOrTP) := []
  functionReturnTypes : List (Option Nat × CType) := []
  functionPrototypes : List (Nat × Node) := []
  arrayLiteralsTypes : List (Nat × CType) := []
  objectLiteralsTypes : List (Nat × CType) := []
  temporaryVariables : List (Option Nat × List String) := []

def getVarData (st : TypeState) (varPos : Nat) : VariableData :=
  (alookup st.variablesData varPos).getD {}

def setVarData (st : TypeState) (varPos : Nat) (vd : VariableData) : TypeState :=
  { st with variablesData := aset st.variablesData varPos vd }

/-! ## generateStructure, name selection (lines 706-717). -/

def counterStructName (n : Nat) : String := "struct_" ++ toString n ++ "_t"

/-- The while-loop of lines 712-714: the first i ≥ 2 such that
varName_i_t is unregistered.  Among the |userStructs|+1 candidate names at
least one is free, so the search is bounded. -/
def freshSuffixName (userStructs : List (String × CType)) (varName : String) : String :=
  match (List.range (userStructs.length + 1)).find?
      (fun j => (alookup userStructs (varName ++ "_" ++ toString (j + 2) ++ "_t")).isNone) with
  | some j => varName ++ "_" ++ toString (j + 2) ++ "_t"
  | none => varName ++ "_" ++ toString (userStructs.length + 2) ++ "_t"

/-- Lines 706-717: counter-based name without an identifier (or with an
empty, hence falsy, identifier text), otherwise varName_t, with integer
suffixing on collision. -/
def pickStructName (userStructs : List (String × CType)) (ident : Option String) : String :=
  let varName := ident.getD ""
  if varName = "" then counterStructName userStructs.length
  else if (alookup userStructs (varName ++ "_t")).isNone then varName ++ "_t"
  else freshSuffixName userStructs varName

/-- The dedup comparison of the loop on lines 734-740: an entry matches
when it is a StructType whose body serialization equals the given code. -/
def bodyMatches (code : String) (e : String × CType) : Bool :=
  match e.2 with
  | .structType _ props => getStructureBodyString props == code
  | _ => false

/-- Registration tail of generateStructure (lines 730-745): dedup by body
serialization (only for non-empty shapes), then register under the chosen
name.  The stored StructType gets the decorated name "struct <name> *"
(line 744). -/
def registerStruct (st : TypeState) (structName0 : String)
    (userStructInfo : List (String × CType)) : CType × TypeState :=
  let userStructCode := getStructureBodyString userStructInfo
  let foundEntry :=
    if userStructInfo.length > 0 then
      st.userStructs.find? (bodyMatches userStructCode)
    else none
  match foundEntry with
  | some e => (e.2, st)
  | none =>
      let v := CType.structType ("struct " ++ structName0 ++ " *") userStructInfo
      (v, { st with userStructs := aset st.userStructs structName0 v })

/-! ## convertType (lines 258-278) / generateStructure (lines 705-746) /
determineArrayType (lines 768-779), mutually recursive over the apparent
types supplied by the front-end.  The name is picked from the state as it is
before the property conversions (lines 706-717 run first), matching the
source order. -/

mutual

/-- convertType (lines 258-278).  The `!tsType` guard is the `none` case. -/
def convertType (st : TypeState) (tsType : Option TsType) (ident : Option String) :
    CType × TypeState :=
  match tsType with
  | none => (.str "void", st)
  | some .voidT => (.str "void", st)
  | some .stringT => (.str StringVarType, st)
  | some .numberT => (.str NumberVarType, st)
  | some .booleanT => (.str BooleanVarType, st)
  | some (.objT props) =>
      if props.length > 0 then generateStructureProps st props ident
      else (.str UniversalVarType, st)
  | some .anyT => (.str PointerVarType, st)
  | some (.otherT _) => (.str UniversalVarType, st)
termination_by 3 * sizeOf tsType

/-- generateStructure (lines 705-746) given the property list of the type. -/
def generateStructureProps (st : TypeState)
    (props : List (String × TsType × Option (Nat × List TsType)))
    (ident : Option String) : CType × TypeState :=
  let structName0 := pickStructName st.userStructs ident
  let (userStructInfo, st1) := convertProps st props
  registerStruct st1 structName0 userStructInfo
termination_by 3 * sizeOf props + 2

/-- The property loop of generateStructure (lines 719-728): each property
type is converted (with the property name as identifier context); a
property that converted to the universal fallback but whose declaration is
a PropertyAssignment with an array-literal initializer is re-derived via
determineArrayType. -/
def convertProps (st : TypeState)
    (props : List (String × TsType × Option (Nat × List TsType))) :
    (List (String × CType)) × TypeState :=
  match props with
  | [] => ([], st)
  | (pname, pty, arrInit) :: rest =>
      let (propType0, st1) := convertType st (some pty) (some pname)
      let (propType, st2) :=
        match arrInit with
        | some (pos, elems) =>
            if isUniversal propType0 then determineArrayTypeOfTypes st1 pos elems
            else (propType0, st1)
        | none => (propType0, st1)
      let (restInfo, st3) := convertProps st2 rest
      ((pname, propType) :: restInfo, st3)
termination_by 3 * sizeOf props + 1

/-- determineArrayType (lines 768-779) on the element types of an array
literal at position `pos`: empty literal gives the universal fallback,
otherwise a fixed array of the converted first-element type with the
element count as capacity, memoized into arrayLiteralsTypes. -/
def determineArrayTypeOfTypes (st : TypeState) (pos : Nat) (elems : List TsType) :
    CType × TypeState :=
  match elems with
  | [] => (.str UniversalVarType, st)
  | e0 :: _ =>
      let (elementType, st1) := convertType st (some e0) none
      let type := CType.arrayType elementType elems.length false
      (type, { st1 with arrayLiteralsTypes := aset st1.arrayLiteralsTypes pos type })
termination_by 3 * sizeOf elems + 2

end

/-- generateStructure (lines 705-746): public entry on an apparent type
(getProperties of a non-object type is empty). -/
def generateStructure (st : TypeState) (tsType : TsType) (ident : Option String) :
    CType × TypeState :=
  generateStructureProps st tsType.getProperties ident

/-- determineArrayType (lines 768-779) applied to an array-literal node:
the elements are sent through the apparent-type query. -/
def determineArrayTypeNode (o : Oracle) (st : TypeState) (arrLiteral : Node) :
    CType × TypeState :=
  match arrLiteral with
  | .arrLit pos elems => determineArrayTypeOfTypes st pos (elems.map o.typeAt)
  | _ => (.str UniversalVarType, st)

/-! ## getCType (lines 136-220).  A result paired with the updated state:
the default branch converts the apparent type, which can register structures
(convertType reaches generateStructure), so the state is threaded exactly as
`this` is in the source. -/

def getCType (o : Oracle) (st : TypeState) : Node → Option CType × TypeState
  | .numLit _ _ => (some (.str NumberVarType), st)
  | .boolLit _ _ => (some (.str BooleanVarType), st)
  | .strLit _ _ => (some (.str StringVarType), st)
  | .ident p n =>
      -- getVariableInfo (lines 223-230) then `varInfo && varInfo.type || null`
      match o.symbolAt (.ident p n) with
      | some declPos => ((alookup st.variablesTable declPos).bind (fun vi => vi.type), st)
      | none => (none, st)
  | .elemAccess _ obj argument =>
      let (parentObjectType, st1) := getCType o st obj
      match parentObjectType with
      | some (.arrayType e _ _) => (some e, st1)
      | some (.structType _ props) => (alookup props (sliceInner (nodeText argument)), st1)
      | some (.dictType e) => (some e, st1)
      | _ => (none, st1)
  | .propAccess _ obj pname =>
      let (parentObjectType, st1) := getCType o st obj
      match parentObjectType with
      | some (.structType _ props) => (alookup props pname, st1)
      | some (.arrayType _ _ _) =>
          (if pname = "length" then some (.str NumberVarType) else none, st1)
      | some (.str s) =>
          (if s = StringVarType ∧ pname = "length" then some (.str NumberVarType) else none, st1)
      | _ => (none, st1)
  | .callExpr _ callee args =>
      match callee with
      | .propAccess _ recvExpr mname =>
          if mname = "pop" ∧ args.length = 0 then
            let (arrType, st1) := getCType o st recvExpr
            match arrType with
            | some (.arrayType e _ _) => (some e, st1)
            | _ => (none, st1)
          else if mname = "push" ∧ args.length = 1 then
            let (arrType, st1) := getCType o st recvExpr
            match arrType with
            | some (.arrayType _ _ _) => (some (.str NumberVarType), st1)
            | _ => (none, st1)
          else if mname = "indexOf" ∧ args.length = 1 then
            let (arrType, st1) := getCType o st recvExpr
            match arrType with
            | some (.str s) =>
                (if s = StringVarType then some (.str NumberVarType) else none, st1)
            | some (.arrayType _ _ _) => (some (.str NumberVarType), st1)
            | _ => (none, st1)
          else (none, st)
      | .ident ip iname =>
          match o.symbolAt (.ident ip iname) with
          | some declPos => (alookup st.functionReturnTypes (some (declPos + 1)), st)
          | none => (none, st)
      | _ => (none, st)
  | .arrLit pos _ => (alookup st.arrayLiteralsTypes pos, st)
  | .objLit pos => (alookup st.objectLiteralsTypes pos, st)
  | .funcDecl pos =>
      (some ((alookup st.functionReturnTypes (some (pos + 1))).getD (.str "void")), st)
  | .otherKind p =>
      let (type, st1) := convertType st (some (o.typeAt (.otherKind p))) none
      if isUniversal type || isPointer type then (none, st1) else (some type, st1)

/-- The node kinds on which determineType defers to a promise
(lines 694-697). -/
def isDeferrableKind : Node → Bool
  | .propAccess _ _ _ => true
  | .elemAccess _ _ _ => true
  | .ident _ _ => true
  | .callExpr _ _ _ => true
  | _ => false

/-- determineType (lines 682-703).  `left` is the identifier giving naming
context (its text feeds generateStructure); `right` may be absent (a
declaration without initializer), in which case the apparent type of `left`
is converted. -/
def determineType (o : Oracle) (st : TypeState) (left : Option Node) (right : Option Node) :
    CTypeOrTP × TypeState :=
  let tsTypeO : Option TsType :=
    match right, left with
    | some r, _ => some (o.typeAt r)
    | none, some l => some (o.typeAt l)
    | none, none => none
  match right with
  | some (.objLit pos) =>
      let (type, st1) := generateStructure st (o.typeAt (.objLit pos)) (left.map nodeText)
      (.ct type, { st1 with objectLiteralsTypes := aset st1.objectLiteralsTypes pos type })
  | some (.arrLit pos elems) =>
      let (t, st1) := determineArrayTypeNode o st (.arrLit pos elems)
      (.ct t, st1)
  | _ =>
      let (type, st1) := convertType st tsTypeO (left.map nodeText)
      match right with
      | some r =>
          if (isPointer type || isUniversal type) && isDeferrableKind r then
            (.tp { associatedNode := r, element := .b false }, st1)
          else (.ct type, st1)
      | none => (.ct type, st1)

def setVarInfo (st : TypeState) (k : Nat) (vi : VariableInfo) : TypeState :=
  { st with variablesTable := aset st.variablesTable k vi }

/-! ## Evidence collection handlers (findVariablesRecursively,
lines 332-545), one definition per syntactic situation. -/

/-- addTypeToVariable (lines 673-680): a promise joins typePromises, a
concrete type joins assignmentTypes keyed by its text (getTypeString of a
CType value is its getText / itself). -/
def addTypeToVariable (o : Oracle) (st : TypeState) (varPos : Nat) (left : Node)
    (right : Option Node) : TypeState :=
  let (determinedType, st1) := determineType o st (some left) right
  let vd := getVarData st1 varPos
  match determinedType with
  | .tp p => setVarData st1 varPos { vd with typePromises := vd.typePromises ++ [p] }
  | .ct t =>
      setVarData st1 varPos
        { vd with assignmentTypes := aset vd.assignmentTypes (ctypeText t) t }

/-- Declaration-with-initializer handling (lines 393-398), for a
declaration that is not a for-of binding. -/
def collectVarDeclInit (o : Oracle) (st : TypeState) (varPos : Nat) (declName : Node)
    (initializer : Option Node) : TypeState :=
  let st1 := addTypeToVariable o st varPos declName initializer
  match initializer with
  | some (.objLit _) =>
      let vd := getVarData st1 varPos
      setVarData st1 varPos { vd with objLiteralAssigned := true }
  | _ => st1

/-- Return-statement handling (lines 351-366); scopeId is the enclosing
function position + 1, or none at top level ("main"). -/
def processReturnStatement (o : Oracle) (st : TypeState) (scopeId : Option Nat)
    (retExpr : Option Node) : TypeState :=
  match retExpr with
  | some e =>
      let (dt0, st1) := determineType o st none (some e)
      let dt : CTypeOrTP :=
        match dt0 with
        | .ct t =>
            if isUniversal t || isPointer t then
              .tp { associatedNode := e, element := .b false }
            else .ct t
        | x => x
      let replace : Bool :=
        match alookup st1.functionReturnsData scopeId with
        | none => true
        | some (.ct t) => isUniversal t
        | some (.tp _) => true
      if replace then
        { st1 with functionReturnsData := aset st1.functionReturnsData scopeId dt }
      else st1
  | none =>
      { st with functionReturnsData := aset st.functionReturnsData scopeId (.ct (.str "void")) }

/-- The per-argument loop of call-site collection (lines 341-347). -/
def processArgs (o : Oracle) (st : TypeState) (funcDeclPos : Nat) (args : List Node)
    (i : Nat) : TypeState :=
  match args with
  | [] => st
  | a :: rest =>
      let (determinedType, st1) := determineType o st none (some a)
      let callData := (alookup st1.functionCallsData funcDeclPos).getD []
      let shouldSet : Bool :=
        match listGetO callData i with
        | none => true
        | some (.ct t) => isUniversal t
        | some (.tp _) => true
      let callData1 := if shouldSet then listSetO callData i determinedType else callData
      let st2 := { st1 with functionCallsData := aset st1.functionCallsData funcDeclPos callData1 }
      processArgs o st2 funcDeclPos rest (i + 1)

/-- Call-expression collection (lines 333-350): resolve the identifier
callee to its declaration position, record a prototype for forward calls,
then collect per-argument evidence.  The prototype node is abstracted by
its declaration position. -/
def processCallSite (o : Oracle) (st : TypeState) (call : Node) : TypeState :=
  match call with
  | .callExpr cpos callee args =>
      match callee with
      | .ident ip iname =>
          match o.symbolAt (.ident ip iname) with
          | some declPos =>
              let funcDeclPos := declPos + 1
              let st0 :=
                if funcDeclPos > cpos then
                  { st with functionPrototypes := aset st.functionPrototypes funcDeclPos (Node.funcDecl declPos) }
                else st
              processArgs o st0 funcDeclPos args 0
          | none => st
      | _ => st
  | _ => st

/-- push()-call handling on an identifier receiver (lines 442-477):
mark isDynamicArray, derive the pushed value (universal fallback unless the
call has exactly one argument), then either defer via an arrayOf promise or
add a DynamicArray candidate, deduplicating against any array candidate
with the same element-type text. -/
def collectPushCall (o : Oracle) (st : TypeState) (varPos : Nat) (receiverIdent : Node)
    (callArgs : Option (List Node)) : TypeState :=
  let st0 := setVarData st varPos { getVarData st varPos with isDynamicArray := true }
  let (determinedType, st1) :=
    match callArgs with
    | some [a] => determineType o st0 (some receiverIdent) (some a)
    | _ => ((.ct (.str UniversalVarType) : CTypeOrTP), st0)
  let vd := getVarData st1 varPos
  match determinedType with
  | .tp p =>
      setVarData st1 varPos
        { vd with typePromises := vd.typePromises ++ [{ p with arrayOf := true }] }
  | .ct t0 =>
      -- `if (determinedType instanceof ArrayType) determinedType.isDynamicArray = true`
      let t := match t0 with
        | .arrayType e c _ => CType.arrayType e c true
        | x => x
      let dtString := ctypeText t
      let found := vd.assignmentTypes.any (fun q =>
        match q.2 with
        | .arrayType e _ _ => ctypeText e == dtString
        | _ => false)
      if found then setVarData st1 varPos vd
      else
        let arrayOfType := CType.arrayType t 0 true
        setVarData st1 varPos
          { vd with assignmentTypes := aset vd.assignmentTypes (ctypeText arrayOfType) arrayOfType }

/-- pop()-call handling (lines 478-480). -/
def collectPopCall (st : TypeState) (varPos : Nat) : TypeState :=
  setVarData st varPos { getVarData st varPos with isDynamicArray := true }

/-- Bracket-write handling (lines 482-534) for `ident[key] = rhs` (rhs absent
when the element access is not the target of an assignment, in which case
the derived type defaults to the universal fallback, line 485). -/
def collectElemAccessWrite (o : Oracle) (st : TypeState) (varPos : Nat) (identNode : Node)
    (keyNode : Node) (assignedRhs : Option Node) : TypeState :=
  let (determinedType, st1) :=
    match assignedRhs with
    | some rhs => determineType o st (some identNode) (some rhs)
    | none => ((.ct (.str UniversalVarType) : CTypeOrTP), st)
  let vd := getVarData st1 varPos
  match keyNode with
  | .strLit kp sval =>
      -- lines 493-503
      let propName := sliceInner (nodeText (.strLit kp sval))
      match determinedType with
      | .tp p =>
          let vd1 := { vd with typePromises :=
            vd.typePromises ++ [{ p with associatedProperty := some propName }] }
          let cur := alookup vd1.addedProperties propName
          setVarData st1 varPos
            { vd1 with addedProperties := aset vd1.addedProperties propName (cur.getD (.str UniversalVarType)) }
      | .ct t =>
          let cur := alookup vd.addedProperties propName
          let vd1 := { vd with addedProperties := aset vd.addedProperties propName (cur.getD (.str UniversalVarType)) }
          let vd2 :=
            if (match alookup vd1.addedProperties propName with
                | some v => isUniversal v
                | none => false) then
              { vd1 with addedProperties := aset vd1.addedProperties propName t }
            else vd1
          setVarData st1 varPos vd2
  | .numLit _ _ =>
      -- lines 504-516
      match determinedType with
      | .tp p =>
          setVarData st1 varPos
            { vd with typePromises := vd.typePromises ++ [{ p with arrayOf := true }] }
      | .ct t =>
          let ats1 := vd.assignmentTypes.map (fun q =>
            match q.2 with
            | .arrayType e c dyn =>
                if isUniversal e then (q.1, CType.arrayType t c dyn) else q
            | _ => q)
          setVarData st1 varPos { vd with assignmentTypes := ats1 }
  | _ =>
      -- lines 517-533 (dynamic key)
      let vd0 := { vd with isDict := true }
      match determinedType with
      | .tp p =>
          setVarData st1 varPos
            { vd0 with typePromises := vd0.typePromises ++ [{ p with arrayOf := true }] }
      | .ct t =>
          let ats1 := vd0.assignmentTypes.foldl (fun ats q =>
            match q.2 with
            | .structType _ _ =>
                let ats' := adel ats q.1
                let dictType := CType.dictType t
                aset ats' (ctypeText dictType) dictType
            | _ => ats) vd0.assignmentTypes
          setVarData st1 varPos { vd0 with assignmentTypes := ats1 }

/-! ## The fixed-point resolver (resolvePromisesAndFinalizeTypes,
lines 548-593, and tryResolvePromises, lines 595-671). -/

/-- The per-variable finalization step (lines 558-585).  The in-place
mutations of the winning candidate (the isDynamicArray upgrade on line 562
and the addedProperties merge on lines 570-576) are written back to the
entry of the owning variable. -/
def finalizeVariable (st : TypeState) (k : Nat) : TypeState :=
  let vd := getVarData st k
  let vi := (alookup st.variablesTable k).getD {}
  let entries := vd.assignmentTypes.filter
    (fun q => !(q.1 == PointerVarType) && !(q.1 == UniversalVarType))
  match entries with
  | [(key0, varType0)] =>
      match varType0 with
      | .arrayType e c dyn =>
          let varType := CType.arrayType e c (dyn || vd.isDynamicArray)
          let vd1 := { vd with assignmentTypes := aset vd.assignmentTypes key0 varType }
          let vi1 := { vi with
            requiresAllocation := vi.requiresAllocation || vd.isDynamicArray,
            type := some varType }
          setVarInfo (setVarData st k vd1) k vi1
      | .structType n props =>
          -- addedProperties entries are CTypes (never promises); the
          -- `instanceof TypePromise` guard on line 573 never fires.
          let props1 := vd.addedProperties.foldl (fun ps q => aset ps q.1 q.2) props
          let varType := CType.structType n props1
          let vd1 := { vd with assignmentTypes := aset vd.assignmentTypes key0 varType }
          let vi1 := { vi with
            requiresAllocation := vi.requiresAllocation || vd.objLiteralAssigned,
            type := some varType }
          setVarInfo (setVarData st k vd1) k vi1
      | .dictType e =>
          setVarInfo st k { vi with requiresAllocation := true, type := some (.dictType e) }
      | .str s =>
          setVarInfo st k { vi with type := some (.str s) }
  | [] => setVarInfo st k { vi with type := some (.str PointerVarType) }
  | _ =>
      setVarInfo st k
        { vi with requiresAllocation := true, type := some (.str UniversalVarType) }

/-- The parameter-evidence part of tryResolvePromises (lines 598-614). -/
def resolveParamPromise (o : Oracle) (st : TypeState) (varPos : Nat) : TypeState × Bool :=
  let vd := getVarData st varPos
  match vd.parameterFuncDeclPos with
  | none => (st, false)
  | some funcDeclPos =>
      match alookup st.functionCallsData funcDeclPos with
      | none => (st, false)
      | some callData =>
          let paramIndex := vd.parameterIndex.getD 0
          match listGetO callData paramIndex with
          | none => (st, false)
          | some (.ct t) =>
              if ctIsTruthy t && (alookup vd.assignmentTypes (ctypeText t)).isNone then
                (setVarData st varPos
                  { vd with assignmentTypes := aset vd.assignmentTypes (ctypeText t) t },
                 true)
              else (st, false)
          | some (.tp p) =>
              let (gct, st1) := getCType o st p.associatedNode
              let finalTypeO : Option CType :=
                match gct with
                | some ft => if ctIsTruthy ft then some ft else none
                | none => none
              match finalTypeO with
              | none => (st1, false)
              | some ft =>
                  -- `if (finalType) type.resolved = true`
                  let callData1 := (alookup st1.functionCallsData funcDeclPos).getD []
                  let callData2 := listSetO callData1 paramIndex (.tp { p with resolved := true })
                  let st2 := { st1 with functionCallsData := aset st1.functionCallsData funcDeclPos callData2 }
                  let vd2 := getVarData st2 varPos
                  if (alookup vd2.assignmentTypes (ctypeText ft)).isNone then
                    (setVarData st2 varPos
                      { vd2 with assignmentTypes := aset vd2.assignmentTypes (ctypeText ft) ft },
                     true)
                  else (st2, false)

/-- One entry of the function-return scan (lines 616-633). -/
def resolveReturnStep (o : Oracle) (st : TypeState) (funcDeclPos : Option Nat) :
    TypeState × Bool :=
  match alookup st.functionReturnsData funcDeclPos with
  | none => (st, false)
  | some slot =>
      let (finalTypeO, st1) :=
        match slot with
        | .ct t => ((if ctIsTruthy t then some t else none), st)
        | .tp p =>
            let (gct, st') := getCType o st p.associatedNode
            match gct with
            | some ft =>
                if ctIsTruthy ft then
                  (some ft,
                   { st' with functionReturnsData := aset st'.functionReturnsData funcDeclPos (.tp { p with resolved := true }) })
                else (none, st')
            | none => (none, st')
      let st2 :=
        match alookup st1.functionReturnTypes funcDeclPos with
        | some t =>
            if ctIsTruthy t then st1
            else { st1 with functionReturnTypes := aset st1.functionReturnTypes funcDeclPos (.str PointerVarType) }
        | none =>
            { st1 with functionReturnTypes := aset st1.functionReturnTypes funcDeclPos (.str PointerVarType) }
      match finalTypeO with
      | some ft =>
          if !(isPointer ft)
              && (match alookup st2.functionReturnTypes funcDeclPos with
                  | some cur => isPointer cur
                  | none => false) then
            ({ st2 with functionReturnTypes := aset st2.functionReturnTypes funcDeclPos ft },
             true)
          else (st2, false)
      | none => (st2, false)

/-- Keys of functionReturnsData in JS for-in order: integer-like keys
ascending, then the "main" key. -/
def returnDataKeys (st : TypeState) : List (Option Nat) :=
  let ks := st.functionReturnsData.map Prod.fst
  (sortNat (ks.filterMap id)).map some ++ (if ks.contains none then [none] else [])

/-- The whole function-return scan (lines 616-633). -/
def resolveReturnPromises (o : Oracle) (st : TypeState) : TypeState × Bool :=
  (returnDataKeys st).foldl (fun acc k =>
    let (st', b) := resolveReturnStep o acc.1 k
    (st', acc.2 || b)) (st, false)

/-- Mark the promise at index `i` resolved (the in-place
`promise.resolved = true` of line 641). -/
def markResolvedAt (l : List TypePromise) (i : Nat) : List TypePromise :=
  match l.get? i with
  | some p => l.set i { p with resolved := true }
  | none => l

/-- Discharge of the variable promise at index `i` (lines 637-666). -/
def dischargePromiseAt (o : Oracle) (st : TypeState) (varPos : Nat) (i : Nat) :
    TypeState × Bool :=
  let vd := getVarData st varPos
  match vd.typePromises.get? i with
  | none => (st, false)
  | some p =>
      if p.resolved then (st, false)
      else
        let (resolvedTypeO, st1) := getCType o st p.associatedNode
        match resolvedTypeO with
        | none => (st1, false)
        | some resolvedType =>
            let vd1 := getVarData st1 varPos
            let st2 := setVarData st1 varPos
              { vd1 with typePromises := markResolvedAt vd1.typePromises i }
            let finalTypeO : Option CType :=
              if p.arrayOf then some (.arrayType resolvedType 0 true)
              else
                match resolvedType with
                | .structType _ props =>
                    if strBoolTruthy p.element then
                      match p.element with
                      | .s propName => alookup props propName
                      | .b _ => some resolvedType
                    else some resolvedType
                | .arrayType e _ _ =>
                    if strBoolTruthy p.element then some e else some resolvedType
                | _ => some resolvedType
            let st3 :=
              if apTruthy p.associatedProperty then
                match finalTypeO with
                | some ft =>
                    let vd3 := getVarData st2 varPos
                    setVarData st2 varPos
                      { vd3 with addedProperties := aset vd3.addedProperties (p.associatedProperty.getD "") ft }
                | none => st2
                  -- the source stores undefined here; such an entry is
                  -- skipped by every later read, modelled as no entry
              else
                match finalTypeO with
                | some ft =>
                    let vd3 := getVarData st2 varPos
                    setVarData st2 varPos
                      { vd3 with assignmentTypes := aset vd3.assignmentTypes (ctypeText ft) ft }
                | none => st2
                  -- the source would call getText() on undefined here;
                  -- unreachable for the promises the engine creates
            (st3, true)

/-- Discharge every still-unresolved promise of the variable, in order
(lines 635-667); the filter-then-iterate of the source is equivalent to
visiting indices in order and skipping promises already resolved. -/
def dischargeVarPromises (o : Oracle) (st : TypeState) (varPos : Nat) : TypeState × Bool :=
  (List.range (getVarData st varPos).typePromises.length).foldl (fun acc i =>
    let (st', b) := dischargePromiseAt o acc.1 varPos i
    (st', acc.2 || b)) (st, false)

/-- tryResolvePromises (lines 595-671). -/
def tryResolvePromises (o : Oracle) (st : TypeState) (varPos : Nat) : TypeState × Bool :=
  let (st1, b1) := resolveParamPromise o st varPos
  let (st2, b2) := resolveReturnPromises o st1
  let (st3, b3) := dischargeVarPromises o st2 varPos
  (st3, b1 || b2 || b3)

/-- One pass of the do-while loop of resolvePromisesAndFinalizeTypes
(lines 552-591): visit every variable in ascending declaration-position
order (JS for-in over integer keys), finalize it, then try to resolve
promises; the Boolean is somePromisesAreResolved. -/
def resolvePass (o : Oracle) (st : TypeState) : TypeState × Bool :=
  (sortNat (st.variablesTable.map Prod.fst)).foldl (fun acc k =>
    let st1 := finalizeVariable acc.1 k
    let (st2, b) := tryResolvePromises o st1 k
    (st2, acc.2 || b)) (st, false)

/-- Iterated passes. -/
def passIter (o : Oracle) (st : TypeState) : Nat → TypeState
  | 0 => st
  | n + 1 => (resolvePass o (passIter o st n)).1

/-- The do-while loop (lines 552-591) with explicit fuel; with enough fuel
this is resolvePromisesAndFinalizeTypes. -/
def resolveLoop (o : Oracle) (st : TypeState) : Nat → TypeState
  | 0 => st
  | fuel + 1 =>
      let (st1, flag) := resolvePass o st
      if flag then resolveLoop o st1 fuel else st1

/-! ## Concrete fixtures: small oracles and states used to evaluate the
engine on specific programs. -/

/-- Oracle of a front-end that types numeric literals as number and string
literals as string; no symbols resolve. -/
def fixtureOracleNum : Oracle :=
  { symbolAt := fun _ => none,
    typeAt := fun n =>
      match n with
      | .numLit _ _ => .numberT
      | .strLit _ _ => .stringT
      | _ => .otherT "unknown" }

/-- Oracle with one function symbol f declared at position 100; nodes of
unhandled kinds have apparent type any. -/
def fixtureOracleCall : Oracle :=
  { symbolAt := fun n =>
      match n with
      | .ident _ name => if name = "f" then some 100 else none
      | _ => none,
    typeAt := fun n =>
      match n with
      | .numLit _ _ => .numberT
      | .otherKind _ => .anyT
      | _ => .otherT "unknown" }

/-- Oracle whose apparent types are all the one-member object type
`a: number`. -/
def fixtureOracleObj : Oracle :=
  { symbolAt := fun _ => none,
    typeAt := fun _ => .objT [("a", .numberT, none)] }

/-- Oracle whose apparent types are all `any`. -/
def fixtureOracleAny : Oracle :=
  { symbolAt := fun n =>
      match n with
      | .ident _ name => if name = "w" then some 300 else none
      | _ => none,
    typeAt := fun _ => .anyT }

/-- A state with one variable (at declaration position 10) carrying no
evidence yet. -/
def fixtureStX : TypeState :=
  { variablesTable := [(10, { name := "x" })], variablesData := [(10, {})] }

/-- The 3-element numeric array literal `[1, 2, 3]` at position 20. -/
def fixtureArr3 : Node :=
  .arrLit 20 [.numLit 21 "1", .numLit 22 "2", .numLit 23 "3"]

/-! ## Frame predicates: which TypeHelper tables an operation left
untouched. -/

/-- All tables except userStructs and arrayLiteralsTypes are unchanged
from `a` to `b`. -/
def framePreserved (a b : TypeState) : Prop :=
  b.variablesTable = a.variablesTable
  ∧ b.variablesData = a.variablesData
  ∧ b.functionCallsData = a.functionCallsData
  ∧ b.functionReturnsData = a.functionReturnsData
  ∧ b.functionReturnTypes = a.functionReturnTypes
  ∧ b.functionPrototypes = a.functionPrototypes
  ∧ b.objectLiteralsTypes = a.objectLiteralsTypes
  ∧ b.temporaryVariables = a.temporaryVariables

/-- All tables except userStructs, arrayLiteralsTypes and
objectLiteralsTypes are unchanged from `a` to `b`. -/
def framePreserved7 (a b : TypeState) : Prop :=
  b.variablesTable = a.variablesTable
  ∧ b.variablesData = a.variablesData
  ∧ b.functionCallsData = a.functionCallsData
  ∧ b.functionReturnsData = a.functionReturnsData
  ∧ b.functionReturnTypes = a.functionReturnTypes
  ∧ b.functionPrototypes = a.functionPrototypes
  ∧ b.temporaryVariables = a.temporaryVariables

/-! # Theorems

General lemmas about the association-list operations, then frame lemmas,
then one theorem per claim (with counterexamples and witnesses). -/

theorem alookup_aset_self {α β : Type} [DecidableEq α] (l : List (α × β)) (k : α) (v : β) :
    alookup (aset l k v) k = some v := by
  induction l with
  | nil => simp [aset, alookup]
  | cons q t ih =>
      obtain ⟨a, b⟩ := q
      by_cases hk : a = k
      · simp [aset, hk, alookup]
      · simp [aset, hk, alookup, ih]

theorem alookup_aset_ne {α β : Type} [DecidableEq α] (l : List (α × β)) (k k' : α) (v : β)
    (hne : k' ≠ k) : alookup (aset l k' v) k = alookup l k := by
  induction l with
  | nil => simp [aset, alookup, hne]
  | cons q t ih =>
      obtain ⟨a, b⟩ := q
      by_cases hk : a = k'
      · subst hk
        simp [aset, alookup, hne]
      · simp only [aset, if_neg hk, alookup]
        by_cases hak : a = k
        · simp [hak]
        · simp [hak, ih]

theorem find?_aset_all_false {α β : Type} [DecidableEq α] (l : List (α × β))
    (p : α × β → Bool) (k : α) (v : β)
    (hall : ∀ x ∈ l, p x = false) (hp : p (k, v) = true) :
    (aset l k v).find? p = some (k, v) := by
  induction l with
  | nil => simp [aset, List.find?, hp]
  | cons q t ih =>
      obtain ⟨a, b⟩ := q
      by_cases hk : a = k
      · subst hk
        simp [aset, List.find?, hp]
      · have hq : p (a, b) = false := hall (a, b) (by simp)
        simp only [aset, if_neg hk]
        rw [List.find?]
        simp only [hq]
        exact ih (fun x hx => hall x (by simp [hx]))

theorem merge_lookup_notmem (added props : List (String × CType)) (pn : String)
    (h : pn ∉ added.map Prod.fst) :
    alookup (added.foldl (fun ps q => aset ps q.1 q.2) props) pn = alookup props pn := by
  induction added generalizing props with
  | nil => rfl
  | cons q t ih =>
      obtain ⟨a, b⟩ := q
      simp only [List.map, List.mem_cons] at h
      push_neg at h
      simp only [List.foldl]
      rw [ih _ h.2, alookup_aset_ne]
      exact fun hc => h.1 hc.symm

theorem merge_lookup_mem (added props : List (String × CType)) (pn : String) (pv : CType)
    (hnd : (added.map Prod.fst).Nodup) (h : (pn, pv) ∈ added) :
    alookup (added.foldl (fun ps q => aset ps q.1 q.2) props) pn = some pv := by
  induction added generalizing props with
  | nil => cases h
  | cons q t ih =>
      obtain ⟨a, b⟩ := q
      simp only [List.map, List.nodup_cons] at hnd
      rcases List.mem_cons.mp h with heq | hmem
      · cases heq
        simp only [List.foldl]
        rw [merge_lookup_notmem _ _ _ hnd.1, alookup_aset_self]
      · simp only [List.foldl]
        exact ih (aset props a b) hnd.2 hmem

/-! ## Claim C9: getTypeString fails loudly exactly on malformed values. -/

/-- C9: after the source-conversion steps, getTypeString throws if and only
if the value is none of ArrayType, StructType, DictType or a string; on an
ArrayType, StructType or DictType it returns that getText() rendering, and
on a string it returns the string unchanged. -/
theorem claim_C9_getTypeString_fails_iff (v : Option CType) :
    ((∃ msg, getTypeString v = .error msg) ↔ v = none)
    ∧ (∀ t : CType, getTypeString (some t) = .ok (ctypeText t))
    ∧ (∀ s : String, getTypeString (some (.str s)) = .ok s) := by
  refine ⟨⟨?_, ?_⟩, ?_, ?_⟩
  · rintro ⟨msg, hmsg⟩
    cases v with
    | none => rfl
    | some t => cases t <;> simp [getTypeString] at hmsg
  · rintro rfl
    exact ⟨"Unrecognized type source", rfl⟩
  · intro t; cases t <;> rfl
  · intro s; rfl

/-! ## Claim C2: record registration dedup. -/

theorem structBodyLine_len (n : String) (t : CType) : 6 ≤ (structBodyLine n t).length := by
  have h4 : ("    " : String).length = 4 := rfl
  have h1 : (" " : String).length = 1 := rfl
  have h2 : (";\n" : String).length = 2 := rfl
  cases t with
  | str s => simp [structBodyLine, String.length_append, h4, h1, h2]; omega
  | arrayType e c d =>
      simp only [structBodyLine]
      split <;> simp [String.length_append, h4, h1, h2] <;> omega
  | structType nm props => simp [structBodyLine, String.length_append, h4, h1, h2]; omega
  | dictType e => simp [structBodyLine, String.length_append, h4, h1, h2]; omega

theorem bodyFold_len (props : List (String × CType)) (acc : String) :
    acc.length + 6 * props.length ≤
      (props.foldl (fun a p => a ++ structBodyLine p.1 p.2) acc).length := by
  induction props generalizing acc with
  | nil => simp
  | cons p t ih =>
      simp only [List.foldl, List.length_cons]
      have h1 := structBodyLine_len p.1 p.2
      have h2 := ih (acc ++ structBodyLine p.1 p.2)
      rw [String.length_append] at h2
      omega

theorem getStructureBodyString_min_len (props : List (String × CType)) (h : props ≠ []) :
    11 ≤ (getStructureBodyString props).length := by
  have hb := bodyFold_len props ""
  have hlen : 1 ≤ props.length := by
    cases props with
    | nil => exact absurd rfl h
    | cons a t => simp
  simp only [getStructureBodyString, String.length_append]
  have h2 : ("\x7b\n" : String).length = 2 := rfl
  have h3 : ("\x7d;\n" : String).length = 3 := rfl
  have h0 : ("" : String).length = 0 := rfl
  rw [h0] at hb
  omega

theorem getStructureBodyString_ne_nilBody (props : List (String × CType)) (h : props ≠ []) :
    getStructureBodyString props ≠ getStructureBodyString [] := by
  intro hc
  have h11 := getStructureBodyString_min_len props h
  have h5 : (getStructureBodyString ([] : List (String × CType))).length = 5 := rfl
  rw [hc, h5] at h11
  omega

theorem registerStruct_found (st : TypeState) (name : String)
    (props : List (String × CType)) {e : String × CType} (hp : 0 < props.length)
    (hfind : st.userStructs.find? (bodyMatches (getStructureBodyString props)) = some e) :
    registerStruct st name props = (e.2, st) := by
  unfold registerStruct
  simp only [gt_iff_lt, if_pos hp, hfind]

theorem registerStruct_notfound (st : TypeState) (name : String)
    (props : List (String × CType)) (hp : 0 < props.length)
    (hfind : st.userStructs.find? (bodyMatches (getStructureBodyString props)) = none) :
    registerStruct st name props =
      (CType.structType ("struct " ++ name ++ " *") props,
       { st with userStructs := aset st.userStructs name (CType.structType ("struct " ++ name ++ " *") props) }) := by
  unfold registerStruct
  simp only [gt_iff_lt, if_pos hp, hfind]

/-- C2 counterexample: two registrations of the empty shape (canonical body
serializations trivially equal) yield two distinct Records — the second
does not return the existing one but creates x_2_t next to x_t. -/
theorem claim_C2_counterexample :
    ctypeText (generateStructureProps ({} : TypeState) [] (some "x")).1 = "struct x_t *"
    ∧ ctypeText (generateStructureProps
        (generateStructureProps ({} : TypeState) [] (some "x")).2 [] (some "x")).1
        = "struct x_2_t *"
    ∧ (generateStructureProps
        (generateStructureProps ({} : TypeState) [] (some "x")).2 [] (some "x")).2.userStructs.length
        = 2 := by
  refine ⟨?_, ?_, ?_⟩ <;>
    (simp only [generateStructureProps, convertProps, registerStruct, pickStructName,
      freshSuffixName, counterStructName, alookup, aset, bodyMatches, ctypeText,
      List.range, List.range.loop, List.find?] <;> decide)

/-- C2 amended: registration is deduplicating and idempotent for non-empty
shapes: registering a shape whose canonical body serialization equals that
of an already-registered non-empty shape returns that same Record (whatever
the naming contexts were) and leaves the table unchanged; empty shapes are
exempt (each empty registration creates a fresh Record). -/
theorem claim_C2_registration_dedup (st : TypeState) (name1 name2 : String)
    (props1 props2 : List (String × CType))
    (hne : props1 ≠ [])
    (hbody : getStructureBodyString props2 = getStructureBodyString props1) :
    registerStruct (registerStruct st name1 props1).2 name2 props2
      = ((registerStruct st name1 props1).1, (registerStruct st name1 props1).2) := by
  have hne2 : props2 ≠ [] := by
    intro h
    rw [h] at hbody
    exact getStructureBodyString_ne_nilBody props1 hne hbody.symm
  have hl1 : 0 < props1.length := List.length_pos.mpr hne
  have hl2 : 0 < props2.length := List.length_pos.mpr hne2
  rcases hfind : st.userStructs.find? (bodyMatches (getStructureBodyString props1))
      with _ | e
  · rw [registerStruct_notfound st name1 props1 hl1 hfind]
    have hall : ∀ x ∈ st.userStructs,
        bodyMatches (getStructureBodyString props1) x = false := by
      intro x hx
      simpa using List.find?_eq_none.mp hfind x hx
    have hv1 : bodyMatches (getStructureBodyString props1)
        (name1, CType.structType ("struct " ++ name1 ++ " *") props1) = true := by
      simp [bodyMatches]
    have hfound2 := find?_aset_all_false st.userStructs _ name1 _ hall hv1
    rw [registerStruct_found _ name2 props2 hl2 (by rw [hbody]; exact hfound2)]
  · rw [registerStruct_found st name1 props1 hl1 hfind]
    rw [registerStruct_found st name2 props2 hl2 (by rw [hbody]; exact hfind)]

theorem claim_C2_registration_dedup_witness :
    ([("p", CType.str "int16_t")] ≠ ([] : List (String × CType)))
    ∧ registerStruct (registerStruct ({} : TypeState) "a_t" [("p", CType.str "int16_t")]).2
        "b_t" [("p", CType.str "int16_t")]
      = ((registerStruct ({} : TypeState) "a_t" [("p", CType.str "int16_t")]).1,
         (registerStruct ({} : TypeState) "a_t" [("p", CType.str "int16_t")]).2) :=
  ⟨by simp, claim_C2_registration_dedup {} "a_t" "b_t" _ _ (by simp) rfl⟩

/-! ## Claim C1: per-variable finalization. -/

/-- C1 counterexample: a variable whose single surviving candidate is a
dynamic array (textual form ARRAY(int16_t)) but whose isDynamicArray usage
flag is not set finalizes to that dynamic array with requiresAllocation
left unset — against the claimed rule "dynamic array implies allocation". -/
theorem claim_C1_counterexample :
    ((alookup (finalizeVariable
        { variablesTable := [(5, { name := "v" })],
          variablesData := [(5,
            { assignmentTypes :=
                [("ARRAY(int16_t)", .arrayType (.str "int16_t") 0 true)] })] } 5).variablesTable
        5).getD {}).type = some (.arrayType (.str "int16_t") 0 true)
    ∧ ((alookup (finalizeVariable
        { variablesTable := [(5, { name := "v" })],
          variablesData := [(5,
            { assignmentTypes :=
                [("ARRAY(int16_t)", .arrayType (.str "int16_t") 0 true)] })] } 5).variablesTable
        5).getD {}).requiresAllocation = false :=
  ⟨rfl, rfl⟩

/-- C1 amended: the finalization of a variable, given that its collected
addedProperties keys are distinct (they are, being object keys).  Writing S
for the candidate entries whose textual key is neither the opaque-pointer
nor the universal fallback: an empty S gives the opaque-pointer type and
leaves the allocation flag alone; two or more entries give the universal
type and set the flag; a singleton wins, with the isDynamicArray usage flag
(not the dynamic-ness of the winner) deciding array allocation, an assigned
object literal deciding record allocation (with every addedProperties entry
merged into the record), and a map always requiring allocation. -/
theorem claim_C1_finalization (st : TypeState) (k : Nat)
    (hprops : ((getVarData st k).addedProperties.map Prod.fst).Nodup) :
    ((getVarData st k).assignmentTypes.filter
        (fun q => !(q.1 == PointerVarType) && !(q.1 == UniversalVarType)) = [] →
      ((alookup (finalizeVariable st k).variablesTable k).getD {}).type
          = some (.str PointerVarType)
      ∧ ((alookup (finalizeVariable st k).variablesTable k).getD {}).requiresAllocation
          = ((alookup st.variablesTable k).getD {}).requiresAllocation)
    ∧ (2 ≤ ((getVarData st k).assignmentTypes.filter
        (fun q => !(q.1 == PointerVarType) && !(q.1 == UniversalVarType))).length →
      ((alookup (finalizeVariable st k).variablesTable k).getD {}).type
          = some (.str UniversalVarType)
      ∧ ((alookup (finalizeVariable st k).variablesTable k).getD {}).requiresAllocation
          = true)
    ∧ (∀ key e c dyn, (getVarData st k).assignmentTypes.filter
        (fun q => !(q.1 == PointerVarType) && !(q.1 == UniversalVarType))
          = [(key, .arrayType e c dyn)] →
      ((alookup (finalizeVariable st k).variablesTable k).getD {}).type
          = some (.arrayType e c (dyn || (getVarData st k).isDynamicArray))
      ∧ ((alookup (finalizeVariable st k).variablesTable k).getD {}).requiresAllocation
          = (((alookup st.variablesTable k).getD {}).requiresAllocation
              || (getVarData st k).isDynamicArray))
    ∧ (∀ key e, (getVarData st k).assignmentTypes.filter
        (fun q => !(q.1 == PointerVarType) && !(q.1 == UniversalVarType)) = [(key, .dictType e)] →
      ((alookup (finalizeVariable st k).variablesTable k).getD {}).type
          = some (.dictType e)
      ∧ ((alookup (finalizeVariable st k).variablesTable k).getD {}).requiresAllocation
          = true)
    ∧ (∀ key s, (getVarData st k).assignmentTypes.filter
        (fun q => !(q.1 == PointerVarType) && !(q.1 == UniversalVarType)) = [(key, .str s)] →
      ((alookup (finalizeVariable st k).variablesTable k).getD {}).type = some (.str s)
      ∧ ((alookup (finalizeVariable st k).variablesTable k).getD {}).requiresAllocation
          = ((alookup st.variablesTable k).getD {}).requiresAllocation)
    ∧ (∀ key n props, (getVarData st k).assignmentTypes.filter
        (fun q => !(q.1 == PointerVarType) && !(q.1 == UniversalVarType))
          = [(key, .structType n props)] →
      ((alookup (finalizeVariable st k).variablesTable k).getD {}).requiresAllocation
          = (((alookup st.variablesTable k).getD {}).requiresAllocation
              || (getVarData st k).objLiteralAssigned)
      ∧ ∃ props1,
          ((alookup (finalizeVariable st k).variablesTable k).getD {}).type
            = some (.structType n props1)
          ∧ (∀ pn pv, (pn, pv) ∈ (getVarData st k).addedProperties →
              alookup props1 pn = some pv)
          ∧ (∀ pn, pn ∉ (getVarData st k).addedProperties.map Prod.fst →
              alookup props1 pn = alookup props pn)) := by
  refine ⟨?_, ?_, ?_, ?_, ?_, ?_⟩
  · intro hS
    simp [finalizeVariable, hS, setVarInfo, alookup_aset_self]
  · intro hS
    rcases hE : (getVarData st k).assignmentTypes.filter
        (fun q => !(q.1 == PointerVarType) && !(q.1 == UniversalVarType)) with _ | ⟨a, rest⟩
    · rw [hE] at hS; simp at hS
    · rcases rest with _ | ⟨b, t⟩
      · rw [hE] at hS; simp at hS
      · simp [finalizeVariable, hE, setVarInfo, alookup_aset_self]
  · intro key e c dyn hS
    simp [finalizeVariable, hS, setVarInfo, setVarData, alookup_aset_self]
  · intro key e hS
    simp [finalizeVariable, hS, setVarInfo, alookup_aset_self]
  · intro key s hS
    simp [finalizeVariable, hS, setVarInfo, alookup_aset_self]
  · intro key n props hS
    simp only [finalizeVariable, hS, setVarInfo, setVarData, alookup_aset_self]
    refine ⟨by simp [alookup_aset_self], ?_⟩
    refine ⟨(getVarData st k).addedProperties.foldl (fun ps q => aset ps q.1 q.2) props, ?_, ?_, ?_⟩
    · simp [alookup_aset_self]
    · intro pn pv hmem
      exact merge_lookup_mem _ _ _ _ hprops hmem
    · intro pn hnot
      exact merge_lookup_notmem _ _ _ hnot

theorem claim_C1_finalization_witness :
    (((getVarData fixtureStX 10).addedProperties.map Prod.fst).Nodup)
    ∧ ((alookup (finalizeVariable fixtureStX 10).variablesTable 10).getD {}).type
        = some (.str PointerVarType) := by
  refine ⟨by decide, ?_⟩
  have h := claim_C1_finalization fixtureStX 10 (by decide)
  exact (h.1 rfl).1

/-! ## Compute lemmas: one-step unfoldings of the well-founded definitions
on concrete constructors, for evaluating the engine on fixtures. -/

theorem convertType_none (st : TypeState) (i : Option String) :
    convertType st none i = (.str "void", st) := by simp [convertType]

theorem convertType_numberT (st : TypeState) (i : Option String) :
    convertType st (some .numberT) i = (.str NumberVarType, st) := by simp [convertType]

theorem convertType_stringT (st : TypeState) (i : Option String) :
    convertType st (some .stringT) i = (.str StringVarType, st) := by simp [convertType]

theorem convertType_booleanT (st : TypeState) (i : Option String) :
    convertType st (some .booleanT) i = (.str BooleanVarType, st) := by simp [convertType]

theorem convertType_anyT (st : TypeState) (i : Option String) :
    convertType st (some .anyT) i = (.str PointerVarType, st) := by simp [convertType]

theorem convertType_otherT (st : TypeState) (i : Option String) (s : String) :
    convertType st (some (.otherT s)) i = (.str UniversalVarType, st) := by simp [convertType]

theorem determineArrayTypeOfTypes_cons (st : TypeState) (pos : Nat) (e0 : TsType)
    (rest : List TsType) :
    determineArrayTypeOfTypes st pos (e0 :: rest) =
      ((CType.arrayType (convertType st (some e0) none).1 (rest.length + 1) false),
       { (convertType st (some e0) none).2 with
          arrayLiteralsTypes := aset (convertType st (some e0) none).2.arrayLiteralsTypes pos
            (CType.arrayType (convertType st (some e0) none).1 (rest.length + 1) false) }) := by
  rw [determineArrayTypeOfTypes]
  simp

/-! ## Claim C6: array capacity and push upgrade. -/

/-- C6: a variable whose only evidence is the 3-element numeric array
literal finalizes to a fixed (non-dynamic) array of capacity 3 with int16_t
elements and no allocation; after an integer push on the same variable it
finalizes to a dynamic array with textual form ARRAY(int16_t) and
requiresAllocation set. -/
theorem claim_C6_array_capacity :
    (((alookup (finalizeVariable
        (collectVarDeclInit fixtureOracleNum fixtureStX 10 (.ident 11 "x") (some fixtureArr3))
        10).variablesTable 10).getD {}).type
      = some (.arrayType (.str NumberVarType) 3 false))
    ∧ (((alookup (finalizeVariable
        (collectVarDeclInit fixtureOracleNum fixtureStX 10 (.ident 11 "x") (some fixtureArr3))
        10).variablesTable 10).getD {}).requiresAllocation = false)
    ∧ (((alookup (finalizeVariable
        (collectPushCall fixtureOracleNum
          (collectVarDeclInit fixtureOracleNum fixtureStX 10 (.ident 11 "x") (some fixtureArr3))
          10 (.ident 12 "x") (some [.numLit 30 "4"]))
        10).variablesTable 10).getD {}).type
      = some (.arrayType (.str NumberVarType) 3 true))
    ∧ (ctypeText (.arrayType (.str NumberVarType) 3 true) = "ARRAY(int16_t)")
    ∧ (((alookup (finalizeVariable
        (collectPushCall fixtureOracleNum
          (collectVarDeclInit fixtureOracleNum fixtureStX 10 (.ident 11 "x") (some fixtureArr3))
          10 (.ident 12 "x") (some [.numLit 30 "4"]))
        10).variablesTable 10).getD {}).requiresAllocation = true) := by
  have hdecl : collectVarDeclInit fixtureOracleNum fixtureStX 10 (.ident 11 "x")
      (some fixtureArr3)
      = { fixtureStX with
            variablesData := [(10,
              { assignmentTypes :=
                  [("static int16_t {var}[3]", .arrayType (.str NumberVarType) 3 false)] })],
            arrayLiteralsTypes := [(20, .arrayType (.str NumberVarType) 3 false)] } := by
    simp [collectVarDeclInit, addTypeToVariable, determineType, determineArrayTypeNode,
      fixtureArr3, fixtureOracleNum, determineArrayTypeOfTypes_cons, convertType_numberT,
      fixtureStX, getVarData, setVarData, alookup, aset, ctypeText]
    decide
  rw [hdecl]
  refine ⟨?_, ?_, ?_, ?_, ?_⟩ <;>
    (simp [collectPushCall, determineType, fixtureOracleNum, convertType_numberT,
      finalizeVariable, getVarData, setVarData, setVarInfo, alookup, aset,
      ctypeText, fixtureStX] <;> decide)

/-! ## Frame lemmas: the conversion and evaluation functions leave all
tables except userStructs and arrayLiteralsTypes (and, for determineType,
objectLiteralsTypes) untouched. -/

theorem framePreserved_refl (a : TypeState) : framePreserved a a :=
  ⟨rfl, rfl, rfl, rfl, rfl, rfl, rfl, rfl⟩

theorem framePreserved_trans {a b c : TypeState}
    (h1 : framePreserved a b) (h2 : framePreserved b c) : framePreserved a c := by
  obtain ⟨x1, x2, x3, x4, x5, x6, x7, x8⟩ := h1
  obtain ⟨y1, y2, y3, y4, y5, y6, y7, y8⟩ := h2
  exact ⟨y1.trans x1, y2.trans x2, y3.trans x3, y4.trans x4,
    y5.trans x5, y6.trans x6, y7.trans x7, y8.trans x8⟩

theorem framePreserved_setUserStructs (st : TypeState) (us : List (String × CType)) :
    framePreserved st { st with userStructs := us } :=
  ⟨rfl, rfl, rfl, rfl, rfl, rfl, rfl, rfl⟩

theorem framePreserved_setArrayLits (st : TypeState) (al : List (Nat × CType)) :
    framePreserved st { st with arrayLiteralsTypes := al } :=
  ⟨rfl, rfl, rfl, rfl, rfl, rfl, rfl, rfl⟩

theorem framePreserved_to7 {a b : TypeState} (h : framePreserved a b) :
    framePreserved7 a b :=
  ⟨h.1, h.2.1, h.2.2.1, h.2.2.2.1, h.2.2.2.2.1, h.2.2.2.2.2.1, h.2.2.2.2.2.2.2⟩

theorem framePreserved7_setObjLits {a b : TypeState} (h : framePreserved a b)
    (ol : List (Nat × CType)) :
    framePreserved7 a { b with objectLiteralsTypes := ol } :=
  ⟨h.1, h.2.1, h.2.2.1, h.2.2.2.1, h.2.2.2.2.1, h.2.2.2.2.2.1, h.2.2.2.2.2.2.2⟩

theorem sizeOf_list_pos {α : Type} [SizeOf α] (l : List α) : 1 ≤ sizeOf l := by
  cases l <;> simp_arith

theorem registerStruct_frame (st : TypeState) (n : String) (ps : List (String × CType)) :
    framePreserved st (registerStruct st n ps).2 := by
  unfold registerStruct
  dsimp only
  split
  · exact framePreserved_refl st
  · exact framePreserved_setUserStructs st _

theorem convertFamily_frame : ∀ fuel : Nat,
    (∀ (props : List (String × TsType × Option (Nat × List TsType))) (st : TypeState),
      sizeOf props ≤ fuel → framePreserved st (convertProps st props).2)
    ∧ (∀ (pos : Nat) (elems : List TsType) (st : TypeState),
      sizeOf elems ≤ fuel → framePreserved st (determineArrayTypeOfTypes st pos elems).2)
    ∧ (∀ (t : Option TsType) (i : Option String) (st : TypeState),
      sizeOf t ≤ fuel → framePreserved st (convertType st t i).2)
    ∧ (∀ (props : List (String × TsType × Option (Nat × List TsType))) (i : Option String)
        (st : TypeState),
      sizeOf props ≤ fuel → framePreserved st (generateStructureProps st props i).2) := by
  intro fuel
  induction fuel with
  | zero =>
      have hO : ∀ (t : Option TsType), 1 ≤ sizeOf t := by
        intro t; cases t <;> simp_arith
      refine ⟨?_, ?_, ?_, ?_⟩
      · intro props st h
        exact absurd h (by have := sizeOf_list_pos props; omega)
      · intro pos elems st h
        exact absurd h (by have := sizeOf_list_pos elems; omega)
      · intro t i st h
        exact absurd h (by have := hO t; omega)
      · intro props i st h
        exact absurd h (by have := sizeOf_list_pos props; omega)
  | succ fuel ih =>
      obtain ⟨ihProps, ihArr, ihConv, ihGen⟩ := ih
      have hProps : ∀ (props : List (String × TsType × Option (Nat × List TsType)))
          (st : TypeState), sizeOf props ≤ fuel + 1 →
          framePreserved st (convertProps st props).2 := by
        intro props st h
        match props with
        | [] =>
            simp only [convertProps]
            exact framePreserved_refl st
        | (pname, pty, none) :: rest =>
            simp only [convertProps]
            have hrest1 : 1 ≤ sizeOf rest := sizeOf_list_pos rest
            simp_arith at h
            have h1 := ihConv (some pty) (some pname) st (by simp_arith; omega)
            rcases hc : convertType st (some pty) (some pname) with ⟨propType0, st1⟩
            rw [hc] at h1
            dsimp only at h1 ⊢
            have h3 := ihProps rest st1 (by omega)
            exact framePreserved_trans h1 h3
        | (pname, pty, some (pos, elems)) :: rest =>
            simp only [convertProps]
            have hrest1 : 1 ≤ sizeOf rest := sizeOf_list_pos rest
            simp_arith at h
            have h1 := ihConv (some pty) (some pname) st (by simp_arith; omega)
            rcases hc : convertType st (some pty) (some pname) with ⟨propType0, st1⟩
            rw [hc] at h1
            dsimp only at h1 ⊢
            split
            · have harr := ihArr pos elems st1 (by omega)
              rcases ha : determineArrayTypeOfTypes st1 pos elems with ⟨pt, st2⟩
              rw [ha] at harr
              dsimp only at harr ⊢
              have h3 := ihProps rest st2 (by omega)
              exact framePreserved_trans h1 (framePreserved_trans harr h3)
            · dsimp only
              have h3 := ihProps rest st1 (by omega)
              exact framePreserved_trans h1 h3
      have hArr : ∀ (pos : Nat) (elems : List TsType) (st : TypeState),
          sizeOf elems ≤ fuel + 1 →
          framePreserved st (determineArrayTypeOfTypes st pos elems).2 := by
        intro pos elems st h
        match elems with
        | [] =>
            simp only [determineArrayTypeOfTypes]
            exact framePreserved_refl st
        | e0 :: rest =>
            simp only [determineArrayTypeOfTypes]
            have hrest1 : 1 ≤ sizeOf rest := sizeOf_list_pos rest
            simp_arith at h
            have h1 := ihConv (some e0) none st (by simp_arith; omega)
            rcases hc : convertType st (some e0) none with ⟨et, st1⟩
            rw [hc] at h1
            dsimp only at h1 ⊢
            exact framePreserved_trans h1 (framePreserved_setArrayLits st1 _)
      have hConv : ∀ (t : Option TsType) (i : Option String) (st : TypeState),
          sizeOf t ≤ fuel + 1 → framePreserved st (convertType st t i).2 := by
        intro t i st h
        match t with
        | none => simp only [convertType]; exact framePreserved_refl st
        | some .voidT => simp only [convertType]; exact framePreserved_refl st
        | some .stringT => simp only [convertType]; exact framePreserved_refl st
        | some .numberT => simp only [convertType]; exact framePreserved_refl st
        | some .booleanT => simp only [convertType]; exact framePreserved_refl st
        | some .anyT => simp only [convertType]; exact framePreserved_refl st
        | some (.otherT s) => simp only [convertType]; exact framePreserved_refl st
        | some (.objT props) =>
            simp only [convertType]
            simp_arith at h
            split
            · exact ihGen props i st (by omega)
            · exact framePreserved_refl st
      have hGen : ∀ (props : List (String × TsType × Option (Nat × List TsType)))
          (i : Option String) (st : TypeState), sizeOf props ≤ fuel + 1 →
          framePreserved st (generateStructureProps st props i).2 := by
        intro props i st h
        simp only [generateStructureProps]
        have h1 := hProps props st h
        rcases hc : convertProps st props with ⟨info, st1⟩
        rw [hc] at h1
        dsimp only at h1 ⊢
        exact framePreserved_trans h1 (registerStruct_frame st1 _ _)
      exact ⟨hProps, hArr, hConv, hGen⟩

theorem convertType_frame (st : TypeState) (t : Option TsType) (i : Option String) :
    framePreserved st (convertType st t i).2 :=
  (convertFamily_frame (sizeOf t)).2.2.1 t i st le_rfl

theorem generateStructureProps_frame (st : TypeState)
    (props : List (String × TsType × Option (Nat × List TsType))) (i : Option String) :
    framePreserved st (generateStructureProps st props i).2 :=
  (convertFamily_frame (sizeOf props)).2.2.2 props i st le_rfl

theorem determineArrayTypeOfTypes_frame (st : TypeState) (pos : Nat) (elems : List TsType) :
    framePreserved st (determineArrayTypeOfTypes st pos elems).2 :=
  (convertFamily_frame (sizeOf elems)).2.1 pos elems st le_rfl

theorem sizeOf_node_pos (n : Node) : 1 ≤ sizeOf n := by
  cases n <;> simp_arith

theorem getCType_frame_fuel : ∀ (fuel : Nat) (n : Node) (o : Oracle) (st : TypeState),
    sizeOf n ≤ fuel → framePreserved st (getCType o st n).2 := by
  intro fuel
  induction fuel with
  | zero =>
      intro n o st h
      exact absurd h (by have := sizeOf_node_pos n; omega)
  | succ fuel ih =>
      intro n o st h
      match n with
      | .numLit p t => simp only [getCType]; exact framePreserved_refl st
      | .strLit p v => simp only [getCType]; exact framePreserved_refl st
      | .boolLit p b => simp only [getCType]; exact framePreserved_refl st
      | .ident p nm =>
          simp only [getCType]
          rcases o.symbolAt (.ident p nm) with _ | d <;> exact framePreserved_refl st
      | .elemAccess p obj arg =>
          simp only [getCType]
          simp_arith at h
          have harg := sizeOf_node_pos arg
          have h1 := ih obj o st (by omega)
          rcases hc : getCType o st obj with ⟨pt, st1⟩
          rw [hc] at h1
          dsimp only
          rcases pt with _ | t
          · exact h1
          · cases t <;> exact h1
      | .propAccess p obj pname =>
          simp only [getCType]
          simp_arith at h
          have h1 := ih obj o st (by omega)
          rcases hc : getCType o st obj with ⟨pt, st1⟩
          rw [hc] at h1
          dsimp only
          rcases pt with _ | t
          · exact h1
          · cases t <;> exact h1
      | .callExpr p callee args =>
          match callee with
          | .propAccess p2 recv mname =>
              simp only [getCType]
              simp_arith at h
              have hargs := sizeOf_list_pos args
              have h1 := ih recv o st (by omega)
              rcases hc : getCType o st recv with ⟨pt, st1⟩
              rw [hc] at h1
              dsimp only
              split
              · rcases pt with _ | t
                · exact h1
                · cases t <;> exact h1
              · split
                · rcases pt with _ | t
                  · exact h1
                  · cases t <;> exact h1
                · split
                  · rcases pt with _ | t
                    · exact h1
                    · cases t <;> exact h1
                  · exact framePreserved_refl st
          | .ident ip iname =>
              simp only [getCType]
              rcases o.symbolAt (.ident ip iname) with _ | d <;> exact framePreserved_refl st
          | .numLit _ _ => exact framePreserved_refl st
          | .strLit _ _ => exact framePreserved_refl st
          | .boolLit _ _ => exact framePreserved_refl st
          | .elemAccess _ _ _ => exact framePreserved_refl st
          | .callExpr _ _ _ => exact framePreserved_refl st
          | .arrLit _ _ => exact framePreserved_refl st
          | .objLit _ => exact framePreserved_refl st
          | .funcDecl _ => exact framePreserved_refl st
          | .otherKind _ => exact framePreserved_refl st
      | .arrLit p elems => simp only [getCType]; exact framePreserved_refl st
      | .objLit p => simp only [getCType]; exact framePreserved_refl st
      | .funcDecl p => simp only [getCType]; exact framePreserved_refl st
      | .otherKind p =>
          simp only [getCType]
          have h1 := convertType_frame st (some (o.typeAt (.otherKind p))) none
          rcases hc : convertType st (some (o.typeAt (.otherKind p))) none with ⟨t, st1⟩
          rw [hc] at h1
          dsimp only
          split <;> exact h1

theorem getCType_frame (o : Oracle) (st : TypeState) (n : Node) :
    framePreserved st (getCType o st n).2 :=
  getCType_frame_fuel (sizeOf n) n o st le_rfl

theorem determineArrayTypeNode_frame (o : Oracle) (st : TypeState) (n : Node) :
    framePreserved st (determineArrayTypeNode o st n).2 := by
  unfold determineArrayTypeNode
  match n with
  | .arrLit pos elems => exact determineArrayTypeOfTypes_frame st pos (elems.map o.typeAt)
  | .numLit _ _ => exact framePreserved_refl st
  | .strLit _ _ => exact framePreserved_refl st
  | .boolLit _ _ => exact framePreserved_refl st
  | .ident _ _ => exact framePreserved_refl st
  | .propAccess _ _ _ => exact framePreserved_refl st
  | .elemAccess _ _ _ => exact framePreserved_refl st
  | .callExpr _ _ _ => exact framePreserved_refl st
  | .objLit _ => exact framePreserved_refl st
  | .funcDecl _ => exact framePreserved_refl st
  | .otherKind _ => exact framePreserved_refl st

theorem determineType_frame7 (o : Oracle) (st : TypeState) (left right : Option Node) :
    framePreserved7 st (determineType o st left right).2 := by
  have hgeneric : ∀ (tso : Option TsType) (r : Node),
      framePreserved7 st
        (if (isPointer (convertType st tso (left.map nodeText)).1
              || isUniversal (convertType st tso (left.map nodeText)).1)
            && isDeferrableKind r then
          ((CTypeOrTP.tp { associatedNode := r, element := .b false }),
            (convertType st tso (left.map nodeText)).2)
        else (.ct (convertType st tso (left.map nodeText)).1,
              (convertType st tso (left.map nodeText)).2)).2 := by
    intro tso r
    have h1 := framePreserved_to7 (convertType_frame st tso (left.map nodeText))
    split <;> exact h1
  match right with
  | some (.objLit pos) =>
      unfold determineType generateStructure
      dsimp only
      have h1 := generateStructureProps_frame st (o.typeAt (.objLit pos)).getProperties
        (left.map nodeText)
      exact framePreserved7_setObjLits h1 _
  | some (.arrLit pos elems) =>
      unfold determineType
      dsimp only
      exact framePreserved_to7 (determineArrayTypeNode_frame o st (.arrLit pos elems))
  | none =>
      unfold determineType
      dsimp only
      exact framePreserved_to7 (convertType_frame st _ (left.map nodeText))
  | some (.numLit p tx) => unfold determineType; dsimp only; exact hgeneric _ _
  | some (.strLit p v) => unfold determineType; dsimp only; exact hgeneric _ _
  | some (.boolLit p b) => unfold determineType; dsimp only; exact hgeneric _ _
  | some (.ident p nm) => unfold determineType; dsimp only; exact hgeneric _ _
  | some (.propAccess p obj pn) => unfold determineType; dsimp only; exact hgeneric _ _
  | some (.elemAccess p obj arg) => unfold determineType; dsimp only; exact hgeneric _ _
  | some (.callExpr p c a) => unfold determineType; dsimp only; exact hgeneric _ _
  | some (.funcDecl p) => unfold determineType; dsimp only; exact hgeneric _ _
  | some (.otherKind p) => unfold determineType; dsimp only; exact hgeneric _ _

/-! ## Claim C8: getCType and engine state. -/

/-- C8 counterexample: getCType is not free of mutation — on a node of an
unhandled kind whose apparent type is an object type with one member, the
default branch converts the type, which registers a Record: userStructs
grows from empty to one entry. -/
theorem claim_C8_counterexample :
    (getCType fixtureOracleObj {} (.otherKind 3)).2.userStructs.length = 1
    ∧ ({} : TypeState).userStructs.length = 0 := by
  constructor
  · simp only [getCType, fixtureOracleObj, convertType, generateStructureProps,
      convertProps, registerStruct, pickStructName, counterStructName,
      convertType_numberT, aset, bodyMatches]
    decide
  · rfl

/-- C8 amended: getCType never mutates the variables, variablesData,
functionCallsData, functionReturnsData, functionReturnTypes,
functionPrototypes, objectLiteralsTypes and temporaryVariables tables, in
every branch; the tables it may extend are userStructs and
arrayLiteralsTypes, through record registration of apparent object types in
the default branch (also reached recursively from the other branches). -/
theorem claim_C8_getCType_state (o : Oracle) (st : TypeState) (n : Node) :
    framePreserved st (getCType o st n).2 :=
  getCType_frame_fuel (sizeOf n) n o st le_rfl

/-! ## Claim C7: determineType defers fallbacks on deferrable kinds. -/

/-- C7: for a right-hand side that is neither an object literal nor an
array literal, determineType returns a TypePromise over that expression
exactly when the front-end conversion yields the opaque-pointer or
universal fallback and the expression is a property access, element
access, identifier or call; otherwise it returns the converted type itself
(fallback included). -/
theorem claim_C7_determineType_defers (o : Oracle) (st : TypeState) (left : Option Node)
    (r : Node)
    (hk : (match r with
      | .objLit _ => true
      | .arrLit _ _ => true
      | _ => false) = false) :
    (((isPointer (convertType st (some (o.typeAt r)) (left.map nodeText)).1
        || isUniversal (convertType st (some (o.typeAt r)) (left.map nodeText)).1)
        && isDeferrableKind r) = true →
      determineType o st left (some r)
        = (.tp { associatedNode := r, element := .b false },
           (convertType st (some (o.typeAt r)) (left.map nodeText)).2))
    ∧ (((isPointer (convertType st (some (o.typeAt r)) (left.map nodeText)).1
        || isUniversal (convertType st (some (o.typeAt r)) (left.map nodeText)).1)
        && isDeferrableKind r) = false →
      determineType o st left (some r)
        = (.ct (convertType st (some (o.typeAt r)) (left.map nodeText)).1,
           (convertType st (some (o.typeAt r)) (left.map nodeText)).2)) := by
  constructor <;> intro hcond <;>
    (cases r <;> simp_all [determineType])

theorem claim_C7_determineType_defers_witness :
    ((match Node.ident 4 "y" with
      | .objLit _ => true
      | .arrLit _ _ => true
      | _ => false) = false)
    ∧ (((isPointer (convertType {} (some (fixtureOracleAny.typeAt (.ident 4 "y")))
          ((none : Option Node).map nodeText)).1
        || isUniversal (convertType {} (some (fixtureOracleAny.typeAt (.ident 4 "y")))
          ((none : Option Node).map nodeText)).1)
        && isDeferrableKind (.ident 4 "y")) = true →
      determineType fixtureOracleAny {} none (some (.ident 4 "y"))
        = (.tp { associatedNode := .ident 4 "y", element := .b false },
           (convertType {} (some (fixtureOracleAny.typeAt (.ident 4 "y")))
             ((none : Option Node).map nodeText)).2)) := by
  refine ⟨rfl, ?_⟩
  exact (claim_C7_determineType_defers fixtureOracleAny {} none (.ident 4 "y") rfl).1

/-! ## Claim C4: merging of return-statement evidence. -/

/-- C4 counterexample: a function returns an expression of number type
(recorded as int16_t), then has a bare return; the bare return overwrites
the existing non-fallback entry with void, so "an existing non-fallback
entry is never replaced by later evidence" fails. -/
theorem claim_C4_counterexample :
    alookup (processReturnStatement fixtureOracleNum {} (some 7)
        (some (.numLit 1 "5"))).functionReturnsData (some 7)
      = some (.ct (.str NumberVarType))
    ∧ alookup (processReturnStatement fixtureOracleNum
        (processReturnStatement fixtureOracleNum {} (some 7) (some (.numLit 1 "5")))
        (some 7) none).functionReturnsData (some 7)
      = some (.ct (.str "void")) := by
  constructor <;>
    simp [processReturnStatement, determineType, fixtureOracleNum, convertType_numberT,
      isUniversal, isPointer, isDeferrableKind, alookup, aset, UniversalVarType,
      PointerVarType, NumberVarType]

/-- C4 amended: over the return statements of a function in collection
order, (1) a bare return unconditionally sets the merged evidence to void,
overwriting anything; (2) an expression return never replaces an existing
concrete entry other than the universal fallback; (3) an absent, promise or
universal entry is replaced by the newly derived evidence, with a
fallback-typed derivation recorded as a promise over the returned
expression; (4) hence a concrete non-universal entry survives any later
sequence of expression returns. -/
theorem claim_C4_return_merge (o : Oracle) :
    (∀ (st : TypeState) (scopeId : Option Nat),
      alookup (processReturnStatement o st scopeId none).functionReturnsData scopeId
        = some (.ct (.str "void")))
    ∧ (∀ (st : TypeState) (scopeId : Option Nat) (e : Node) (t : CType),
        alookup st.functionReturnsData scopeId = some (.ct t) →
        isUniversal t = false →
        alookup (processReturnStatement o st scopeId (some e)).functionReturnsData scopeId
          = some (.ct t))
    ∧ (∀ (st : TypeState) (scopeId : Option Nat) (e : Node),
        (alookup st.functionReturnsData scopeId = none
          ∨ (∃ p, alookup st.functionReturnsData scopeId = some (.tp p))
          ∨ alookup st.functionReturnsData scopeId = some (.ct (.str UniversalVarType))) →
        alookup (processReturnStatement o st scopeId (some e)).functionReturnsData scopeId
          = some (match (determineType o st none (some e)).1 with
              | .ct t =>
                  if isUniversal t || isPointer t then
                    .tp { associatedNode := e, element := .b false }
                  else .ct t
              | .tp p => .tp p))
    ∧ (∀ (st : TypeState) (scopeId : Option Nat) (t : CType) (evs : List Node),
        alookup st.functionReturnsData scopeId = some (.ct t) →
        isUniversal t = false →
        alookup ((evs.foldl (fun s e => processReturnStatement o s scopeId (some e))
            st)).functionReturnsData scopeId = some (.ct t)) := by
  have hstep : ∀ (st : TypeState) (scopeId : Option Nat) (e : Node) (t : CType),
      alookup st.functionReturnsData scopeId = some (.ct t) →
      isUniversal t = false →
      alookup (processReturnStatement o st scopeId (some e)).functionReturnsData scopeId
        = some (.ct t) := by
    intro st scopeId e t hlk hu
    unfold processReturnStatement
    dsimp only
    have hf := determineType_frame7 o st none (some e)
    rcases hd : determineType o st none (some e) with ⟨dt0, st1⟩
    rw [hd] at hf
    try rw [hd]
    dsimp only at hf ⊢
    rw [hf.2.2.2.1, hlk]
    dsimp only
    rw [hu]
    simp only [Bool.false_eq_true, if_false]
    rw [hf.2.2.2.1, hlk]
  refine ⟨?_, hstep, ?_, ?_⟩
  · intro st scopeId
    unfold processReturnStatement
    exact alookup_aset_self _ _ _
  · intro st scopeId e hcase
    unfold processReturnStatement
    dsimp only
    have hf := determineType_frame7 o st none (some e)
    rcases hd : determineType o st none (some e) with ⟨dt0, st1⟩
    rw [hd] at hf
    try rw [hd]
    dsimp only at hf ⊢
    rcases hcase with hnone | ⟨p, hp⟩ | huniv
    · rw [hf.2.2.2.1, hnone]
      dsimp only
      rw [if_pos rfl]
      dsimp only
      rw [alookup_aset_self]
      cases dt0 <;> rfl
    · rw [hf.2.2.2.1, hp]
      dsimp only
      rw [if_pos rfl]
      dsimp only
      rw [alookup_aset_self]
      cases dt0 <;> rfl
    · rw [hf.2.2.2.1, huniv]
      dsimp only
      have : isUniversal (.str UniversalVarType) = true := by decide
      rw [this]
      rw [if_pos rfl]
      dsimp only
      rw [alookup_aset_self]
      cases dt0 <;> rfl
  · intro st scopeId t evs
    induction evs generalizing st with
    | nil => intro h hu; exact h
    | cons e rest ih =>
        intro h hu
        simp only [List.foldl]
        exact ih _ (hstep st scopeId e t h hu) hu

theorem claim_C4_return_merge_witness :
    (alookup ({ functionReturnsData := [(some 7, .ct (.str NumberVarType))] }
        : TypeState).functionReturnsData (some 7) = some (.ct (.str NumberVarType)))
    ∧ isUniversal (.str NumberVarType) = false
    ∧ alookup (processReturnStatement fixtureOracleNum
        { functionReturnsData := [(some 7, .ct (.str NumberVarType))] }
        (some 7) (some (.numLit 9 "3"))).functionReturnsData (some 7)
      = some (.ct (.str NumberVarType)) := by
  refine ⟨rfl, rfl, ?_⟩
  exact (claim_C4_return_merge fixtureOracleNum).2.1 _ (some 7) (.numLit 9 "3")
    (.str NumberVarType) rfl rfl

/-! ## Claim C5: merging of call-site argument evidence. -/

theorem listGetO_listSetO_self {β : Type} :
    ∀ (l : List (Option β)) (i : Nat) (v : β), listGetO (listSetO l i v) i = some v := by
  intro l
  induction l with
  | nil =>
      intro i v
      induction i with
      | zero => rfl
      | succ i ihi => simp only [listSetO, listGetO]; exact ihi
  | cons x rest ih =>
      intro i v
      cases i with
      | zero => rfl
      | succ i => simp only [listSetO, listGetO]; exact ih i v

theorem listGetO_listSetO_ne {β : Type} :
    ∀ (l : List (Option β)) (i : Nat) (v : β) (idx : Nat), idx ≠ i →
      listGetO (listSetO l i v) idx = listGetO l idx := by
  intro l
  induction l with
  | nil =>
      intro i
      induction i with
      | zero =>
          intro v idx h
          cases idx with
          | zero => exact absurd rfl h
          | succ idx => rfl
      | succ i ihi =>
          intro v idx h
          cases idx with
          | zero => rfl
          | succ idx =>
              simp only [listSetO, listGetO]
              exact ihi v idx (fun hc => h (by rw [hc]))
  | cons x rest ih =>
      intro i v idx h
      cases i with
      | zero =>
          cases idx with
          | zero => exact absurd rfl h
          | succ idx => rfl
      | succ i =>
          cases idx with
          | zero => rfl
          | succ idx =>
              simp only [listSetO, listGetO]
              exact ih i v idx (fun hc => h (by rw [hc]))

/-- The slot update of one argument-processing step (lines 341-347),
extracted: the recorded value at the processed position. -/
theorem processArgs_keep (o : Oracle) :
    ∀ (args : List Node) (st : TypeState) (fd : Nat) (j idx : Nat) (t : CType),
      listGetO ((alookup st.functionCallsData fd).getD []) idx = some (.ct t) →
      isUniversal t = false →
      listGetO ((alookup (processArgs o st fd args j).functionCallsData fd).getD []) idx
        = some (.ct t) := by
  intro args
  induction args with
  | nil => intro st fd j idx t h hu; exact h
  | cons a rest ih =>
      intro st fd j idx t h hu
      unfold processArgs
      have hf := determineType_frame7 o st none (some a)
      rcases hd : determineType o st none (some a) with ⟨dt, st1⟩
      rw [hd] at hf
      try rw [hd]
      dsimp only at hf ⊢
      rw [hf.2.2.1] at *
      by_cases hij : idx = j
      · subst hij
        rw [h]
        dsimp only
        rw [hu]
        simp only [Bool.false_eq_true, if_false]
        apply ih
        · rw [alookup_aset_self]
          simpa using h
        · exact hu
      · apply ih _ fd (j + 1) idx t _ hu
        rw [alookup_aset_self]
        simp only [Option.getD_some]
        split
        · rw [listGetO_listSetO_ne _ _ _ _ hij]
          exact h
        · exact h

/-- Positions below the starting index are untouched by processArgs. -/
theorem processArgs_lower (o : Oracle) :
    ∀ (args : List Node) (st : TypeState) (fd : Nat) (j idx : Nat), idx < j →
      listGetO ((alookup (processArgs o st fd args j).functionCallsData fd).getD []) idx
        = listGetO ((alookup st.functionCallsData fd).getD []) idx := by
  intro args
  induction args with
  | nil => intro st fd j idx h; rfl
  | cons a rest ih =>
      intro st fd j idx h
      unfold processArgs
      have hf := determineType_frame7 o st none (some a)
      rcases hd : determineType o st none (some a) with ⟨dt, st1⟩
      rw [hd] at hf
      try rw [hd]
      dsimp only at hf ⊢
      rw [hf.2.2.1] at *
      rw [ih _ fd (j + 1) idx (by omega)]
      rw [alookup_aset_self]
      simp only [Option.getD_some]
      split
      · exact listGetO_listSetO_ne _ _ _ _ (by omega)
      · rfl

/-- C5 counterexample: the first call site passes an argument of apparent
type any, recording the opaque-pointer fallback at position 0; a later call
site passes a numeric literal, deriving concrete int16_t evidence, yet the
recorded evidence stays the opaque pointer — the fallback is not
superseded. -/
theorem claim_C5_counterexample :
    ((alookup (processCallSite fixtureOracleCall {}
        (.callExpr 200 (.ident 201 "f") [.otherKind 202])).functionCallsData 101).getD []
      = [some (.ct (.str PointerVarType))])
    ∧ ((determineType fixtureOracleCall
        (processCallSite fixtureOracleCall {} (.callExpr 200 (.ident 201 "f") [.otherKind 202]))
        none (some (.numLit 212 "5"))).1 = .ct (.str NumberVarType))
    ∧ ((alookup (processCallSite fixtureOracleCall
        (processCallSite fixtureOracleCall {} (.callExpr 200 (.ident 201 "f") [.otherKind 202]))
        (.callExpr 210 (.ident 211 "f") [.numLit 212 "5"])).functionCallsData 101).getD []
      = [some (.ct (.str PointerVarType))]) := by
  refine ⟨?_, ?_, ?_⟩ <;>
    simp [processCallSite, processArgs, determineType, fixtureOracleCall,
      convertType_numberT, convertType_anyT, isUniversal, isPointer, isDeferrableKind,
      alookup, aset, listGetO, listSetO, UniversalVarType, PointerVarType, NumberVarType]

/-- C5 amended: per argument position, an absent entry, the
universal-dynamic-value fallback, or a promise is overwritten by the newly
derived evidence, and the positions processed later in the same call leave
it alone; any other recorded concrete value — including the opaque-pointer
fallback — is never replaced by later call sites. -/
theorem claim_C5_call_arg_merge (o : Oracle) :
    (∀ (args : List Node) (st : TypeState) (fd : Nat) (j idx : Nat) (t : CType),
      listGetO ((alookup st.functionCallsData fd).getD []) idx = some (.ct t) →
      isUniversal t = false →
      listGetO ((alookup (processArgs o st fd args j).functionCallsData fd).getD []) idx
        = some (.ct t))
    ∧ (∀ (st : TypeState) (fd : Nat) (a : Node) (rest : List Node) (i : Nat),
      (listGetO ((alookup st.functionCallsData fd).getD []) i = none
        ∨ listGetO ((alookup st.functionCallsData fd).getD []) i
            = some (.ct (.str UniversalVarType))
        ∨ (∃ p, listGetO ((alookup st.functionCallsData fd).getD []) i = some (.tp p))) →
      listGetO ((alookup (processArgs o st fd (a :: rest) i).functionCallsData fd).getD []) i
        = some (determineType o st none (some a)).1) := by
  refine ⟨processArgs_keep o, ?_⟩
  intro st fd a rest i hcase
  unfold processArgs
  have hf := determineType_frame7 o st none (some a)
  rcases hd : determineType o st none (some a) with ⟨dt, st1⟩
  rw [hd] at hf
  try rw [hd]
  dsimp only at hf ⊢
  rw [hf.2.2.1] at *
  have hset : (match listGetO ((alookup st.functionCallsData fd).getD []) i with
      | none => true
      | some (.ct t) => isUniversal t
      | some (.tp _) => true) = true := by
    rcases hcase with h1 | h1 | ⟨p, h1⟩ <;> rw [h1] <;> simp [isUniversal]
  rw [processArgs_lower o rest _ fd (i + 1) i (by omega)]
  rw [hset]
  simp only [if_true]
  rw [alookup_aset_self]
  simp only [Option.getD_some]
  exact listGetO_listSetO_self _ _ _

theorem claim_C5_call_arg_merge_witness :
    (listGetO ((alookup ({} : TypeState).functionCallsData 101).getD []) 0 = none)
    ∧ listGetO ((alookup (processArgs fixtureOracleCall {} 101 [.numLit 212 "5"]
        0).functionCallsData 101).getD []) 0
      = some (determineType fixtureOracleCall {} none (some (.numLit 212 "5"))).1 := by
  refine ⟨rfl, ?_⟩
  exact (claim_C5_call_arg_merge fixtureOracleCall).2 {} 101 (.numLit 212 "5") [] 0
    (Or.inl rfl)

/-! ## Claim C10: dynamic-key bracket writes with a deferred right-hand
side. -/

theorem mem_aset_of_ne {α β : Type} [DecidableEq α] :
    ∀ (l : List (α × β)) (k : α) (v : β) (q : α × β), q ∈ l → q.1 ≠ k → q ∈ aset l k v := by
  intro l k v
  induction l with
  | nil => intro q hq; cases hq
  | cons a rest ih =>
      intro q hq hne
      by_cases hk : a.1 = k
      · obtain ⟨a1, a2⟩ := a
        simp only [aset]
        rw [if_pos hk]
        rcases List.mem_cons.mp hq with rfl | hmem
        · exact absurd hk (by simpa using hne)
        · exact List.mem_cons_of_mem _ hmem
      · obtain ⟨a1, a2⟩ := a
        simp only [aset]
        rw [if_neg hk]
        rcases List.mem_cons.mp hq with rfl | hmem
        · exact List.mem_cons_self _ _
        · exact List.mem_cons_of_mem _ (ih _ hmem hne)

theorem getVarData_setVarData (st : TypeState) (k : Nat) (vd : VariableData) :
    getVarData (setVarData st k vd) k = vd := by
  simp [getVarData, setVarData, alookup_aset_self]

/-- C10: a bracket write with a key that is neither a string literal nor a
numeric literal, whose right-hand side derives to a TypePromise, marks the
variable isDict, appends the promise tagged arrayOf, and leaves the
collected candidates (any Record candidates included) untouched; when such
a promise is later discharged to a resolved type, the contributed candidate
is the dynamic array over that type — never a Map — again leaving every
previously collected Record candidate with a different textual key in
place. -/
theorem claim_C10_dynamic_key_promise (o : Oracle) :
    (∀ (st : TypeState) (varPos : Nat) (identNode keyNode rhs : Node) (p : TypePromise),
      (match keyNode with
        | .strLit _ _ => true
        | .numLit _ _ => true
        | _ => false) = false →
      (determineType o st (some identNode) (some rhs)).1 = .tp p →
      (getVarData (collectElemAccessWrite o st varPos identNode keyNode (some rhs))
          varPos).isDict = true
      ∧ (getVarData (collectElemAccessWrite o st varPos identNode keyNode (some rhs))
          varPos).typePromises
        = (getVarData st varPos).typePromises ++ [{ p with arrayOf := true }]
      ∧ (getVarData (collectElemAccessWrite o st varPos identNode keyNode (some rhs))
          varPos).assignmentTypes
        = (getVarData st varPos).assignmentTypes)
    ∧ (∀ (st : TypeState) (varPos i : Nat) (p : TypePromise) (tau : CType) (st1 : TypeState),
      (getVarData st varPos).typePromises.get? i = some p →
      p.resolved = false →
      p.arrayOf = true →
      apTruthy p.associatedProperty = false →
      getCType o st p.associatedNode = (some tau, st1) →
      (dischargePromiseAt o st varPos i).2 = true
      ∧ (getVarData (dischargePromiseAt o st varPos i).1 varPos).assignmentTypes
          = aset (getVarData st varPos).assignmentTypes
              (ctypeText (.arrayType tau 0 true)) (.arrayType tau 0 true)
      ∧ (∀ q, q ∈ (getVarData st varPos).assignmentTypes →
          q.1 ≠ ctypeText (.arrayType tau 0 true) →
          q ∈ (getVarData (dischargePromiseAt o st varPos i).1 varPos).assignmentTypes)) := by
  constructor
  · intro st varPos identNode keyNode rhs p hkey hprom
    have hf := determineType_frame7 o st (some identNode) (some rhs)
    have hvd : getVarData (determineType o st (some identNode) (some rhs)).2 varPos
        = getVarData st varPos := by
      unfold getVarData
      rw [hf.2.1]
    unfold collectElemAccessWrite
    rcases hd : determineType o st (some identNode) (some rhs) with ⟨dt, st1⟩
    rw [hd] at hvd hprom
    try rw [hd]
    dsimp only at hvd hprom ⊢
    subst hprom
    cases keyNode <;> simp_all [getVarData_setVarData]
  · intro st varPos i p tau st1 hget hres harr hap hcty
    have hf := getCType_frame o st p.associatedNode
    have hvd : getVarData (getCType o st p.associatedNode).2 varPos
        = getVarData st varPos := by
      unfold getVarData
      rw [hf.2.1]
    unfold dischargePromiseAt
    dsimp only
    rw [hget]
    dsimp only
    rw [hres]
    simp only [Bool.false_eq_true, if_false]
    rw [hcty] at hvd ⊢
    dsimp only at hvd ⊢
    rw [harr, hap]
    simp only [if_true, Bool.false_eq_true, if_false]
    refine ⟨by trivial, ?_, ?_⟩
    · rw [getVarData_setVarData, getVarData_setVarData, hvd]
    · intro q hq hne
      rw [getVarData_setVarData, getVarData_setVarData, hvd]
      exact mem_aset_of_ne _ _ _ q hq hne

theorem claim_C10_dynamic_key_promise_witness :
    ((match Node.ident 52 "k" with
      | .strLit _ _ => true
      | .numLit _ _ => true
      | _ => false) = false)
    ∧ ((determineType fixtureOracleAny
        { variablesTable := [(50, { name := "v" })], variablesData := [(50, {})] }
        (some (.ident 51 "v")) (some (.ident 53 "w"))).1
      = .tp { associatedNode := .ident 53 "w", element := .b false })
    ∧ (getVarData (collectElemAccessWrite fixtureOracleAny
        { variablesTable := [(50, { name := "v" })], variablesData := [(50, {})] }
        50 (.ident 51 "v") (.ident 52 "k") (some (.ident 53 "w"))) 50).isDict = true := by
  refine ⟨rfl, ?_, ?_⟩
  · simp [determineType, fixtureOracleAny, convertType_anyT, isPointer, isDeferrableKind]
  · exact ((claim_C10_dynamic_key_promise fixtureOracleAny).1
      { variablesTable := [(50, { name := "v" })], variablesData := [(50, {})] }
      50 (.ident 51 "v") (.ident 52 "k") (.ident 53 "w")
      { associatedNode := .ident 53 "w", element := .b false } rfl
      (by simp [determineType, fixtureOracleAny, convertType_anyT, isPointer,
        isDeferrableKind])).1

end Ts2c
